import Mathlib

/-!
# Verification of the `tplot` figure-rendering engine

A shallow embedding of `src/tplot/figure.py` (the `Figure` class: registration
of scatter/line/bar/hbar plots, lazily cached derived values, and the draw
pipeline), together with models of the helpers it imports from the repository's
`scales`/`utils` modules (`is_numerical`, `LinearScale`, `NominalScale`,
`best_ticks`, `plot_line_segment`), which are not part of the given sources and
are therefore modelled from the specification.

Numbers are embedded as rationals (`ℚ`); Python's `round` (banker's rounding),
`int` (truncation toward zero), negative indexing and slice clipping are
modelled explicitly.  Fallible operations return `Except FigError`.
-/

namespace Tplot

/-- Failure modes of the embedded code.  The spec's error taxonomy maps onto
Python exceptions as follows: `mismatchedLength` is the spec's
`MismatchedLengthError` (the `assert len(x) == len(y)` in `Figure._prep`);
`emptyData` is the spec's `EmptyDataError` (Python `min()`/`max()` of an empty
sequence, reached when drawing with no registered plots); `unknownCategory` is
the spec's `UnknownCategoryError`.  The remaining constructors model Python
runtime errors: `indexOutOfRange` (IndexError), `shapeMismatch` (numpy
ValueError on mis-sized slice assignment), `invalidShape` (numpy ValueError on
a negative canvas dimension), `nameError` (use of an unbound local, reached for
an unrecognized `legendloc`), `typeError` (comparison/arithmetic on mixed or
non-numeric operands), `formatError` (applying the `.2g` float format to a
non-numeric value). -/
inductive FigError where
  | mismatchedLength
  | emptyData
  | unknownCategory
  | indexOutOfRange
  | shapeMismatch
  | invalidShape
  | nameError
  | typeError
  | formatError
  deriving Repr, DecidableEq

/-- Equality of `Except` results is decidable when it is on both payload
types, so concrete runs of the embedded code can be checked by `decide`. -/
instance {ε α : Type} [DecidableEq ε] [DecidableEq α] :
    DecidableEq (Except ε α)
  | .error e, .error f =>
    if h : e = f then .isTrue (by rw [h]) else .isFalse (by simp [h])
  | .error _, .ok _ => .isFalse (by simp)
  | .ok _, .error _ => .isFalse (by simp)
  | .ok a, .ok b =>
    if h : a = b then .isTrue (by rw [h]) else .isFalse (by simp [h])

/-- A data value supplied to an axis: numeric (embedded as `ℚ`) or
categorical (a string label). -/
inductive Value where
  | num (q : ℚ)
  | cat (s : String)
  deriving Repr, DecidableEq

namespace Value

def isNum : Value → Bool
  | num _ => true
  | cat _ => false

/-- Extract the numeric payload; `typeError` on a categorical value
(models Python arithmetic on a string). -/
def toNum : Value → Except FigError ℚ
  | num q => .ok q
  | cat _ => .error .typeError

end Value

/-- Modelled from the spec: the numeric/categorical classification predicate
(`is_numerical` from the missing `utils` module).  "Determined once per axis by
classifying every value supplied to that axis as numeric or not …
classification is based on the whole collection."  An empty collection
classifies as numeric (vacuously all-numeric). -/
def isNumerical (vs : List Value) : Bool :=
  vs.all Value.isNum

/-- Python `round` on an exact value: round half to even. -/
def pyround (q : ℚ) : ℤ :=
  let f := ⌊q⌋
  let r := q - (f : ℚ)
  if r < 1/2 then f
  else if 1/2 < r then f + 1
  else if f % 2 = 0 then f else f + 1

/-- Python `int()` on a real value: truncation toward zero. -/
def pytrunc (q : ℚ) : ℤ :=
  if 0 ≤ q then ⌊q⌋ else ⌈q⌉

/-- Python ordering on values: numbers compare numerically, strings
lexicographically, mixed comparison is a `TypeError`. -/
def pyLt (a b : Value) : Except FigError Bool :=
  match a, b with
  | .num p, .num q => .ok (decide (p < q))
  | .cat s, .cat t => .ok (decide (s < t))
  | _, _ => .error .typeError

/-- Python `min` over a sequence of values; empty input is the spec's
`EmptyDataError` (Python `ValueError: min() arg is an empty sequence`). -/
def pyMinV (vs : List Value) : Except FigError Value :=
  match vs with
  | [] => .error .emptyData
  | v :: rest => rest.foldlM (fun acc w => do
      let lt ← pyLt w acc
      pure (if lt then w else acc)) v

/-- Python `max` over a sequence of values; empty input is the spec's
`EmptyDataError`. -/
def pyMaxV (vs : List Value) : Except FigError Value :=
  match vs with
  | [] => .error .emptyData
  | v :: rest => rest.foldlM (fun acc w => do
      let lt ← pyLt acc w
      pure (if lt then w else acc)) v

/-- The distinct values of a list in first-occurrence order.  This embeds the
Python `set(...)` constructor used for categorical tick sets.  CPython gives a
`set` no guaranteed iteration order; the spec stipulates: "Categorical tick
sets built from an unordered set collection … are treated here as requiring a
*stable* order — implementers must pick and document one (e.g.,
first-occurrence order)".  First-occurrence order is the stable order chosen
here. -/
def pyDedup (vs : List Value) : List Value :=
  vs.foldl (fun acc v => if v ∈ acc then acc else acc ++ [v]) []

/-- `10^k` for an integer `k`, over `ℚ`. -/
def pow10 (k : ℤ) : ℚ :=
  if 0 ≤ k then ((10 : ℚ) ^ k.toNat) else 1 / ((10 : ℚ) ^ (-k).toNat)

/-- `⌊log₁₀ t⌋` for a positive rational `t`. -/
def floorLog10 (t : ℚ) : ℤ :=
  if 1 ≤ t then (Nat.log 10 ⌊t⌋.toNat : ℤ)
  else -(Nat.clog 10 ⌈1 / t⌉.toNat : ℤ)

/-- Modelled from the spec: the Tick Selector `best_ticks` from the missing
`utils` module (§4.2).  "The step is chosen from the candidate set
`{1, 2, 5} × 10^k` (k any integer) as the smallest candidate such that
`ceil((max-min)/step) + 1 ≤ most`; the first tick is the largest multiple of
`step` ≤ `min`, ticks continue by `+step` while `≤` the smallest multiple of
`step` that is `≥ max`."  For an integer bound `ceil(r/s) + 1 ≤ m` is
equivalent to `s ≥ r/(m-1)`, so the smallest candidate is found by scanning
the nice candidates around `10^⌊log₁₀(r/(m-1))⌋`.  Per the spec, `most < 2`
"still returns at least the two domain-bounding nice values" (treated as a
budget of 2), and `min == max` is a degenerate single-tick case. -/
def best_ticks (mn mx : ℚ) (most : ℤ) : Except FigError (List ℚ) :=
  if mx ≤ mn then .ok [mn]
  else
    let range : ℚ := mx - mn
    let m : ℤ := max most 2
    let fits : ℚ → Bool := fun step => decide (⌈range / step⌉ + 1 ≤ m)
    let k : ℤ := floorLog10 (range / ((m : ℚ) - 1))
    let cands : List ℚ :=
      [pow10 k, 2 * pow10 k, 5 * pow10 k, pow10 (k + 1), 2 * pow10 (k + 1),
       5 * pow10 (k + 1)]
    let step : ℚ := ((cands.filter fits).head?).getD (pow10 (k + 1))
    let lo : ℤ := ⌊mn / step⌋
    let hi : ℤ := ⌈mx / step⌉
    let n : ℕ := (hi - lo).toNat + 1
    .ok ((List.range n).map (fun i => ((lo : ℚ) + (i : ℚ)) * step))

/-- Decimal digit characters of a natural number. -/
def natDigits (n : ℕ) : String :=
  String.mk ((Nat.toDigits 10 n))

/-- Strip trailing zeros, then a trailing decimal point, from a fixed-point
decimal string (Python's `%g` suppresses insignificant trailing zeros). -/
def stripTrailing (s : String) : String :=
  if s.contains '.' then
    let t := s.dropRightWhile (· = '0')
    t.dropRightWhile (· = '.')
  else s

/-- `Figure._fmt`: Python `f"{value:.2g}"` on an exact numeric value — general
format with 2 significant digits, fixed notation when the decimal exponent `e`
satisfies `-4 ≤ e < 2`, scientific notation (two-digit exponent) otherwise. -/
def fmtG2 (q : ℚ) : String :=
  if q = 0 then "0"
  else
    let sign := if q < 0 then "-" else ""
    let a := |q|
    let e₀ : ℤ := floorLog10 a
    -- round to two significant digits (half to even)
    let n₀ : ℤ := pyround (a / pow10 (e₀ - 1))
    let e : ℤ := if n₀ = 100 then e₀ + 1 else e₀
    let n : ℤ := if n₀ = 100 then 10 else n₀
    let d1 : ℕ := n.toNat / 10
    let d2 : ℕ := n.toNat % 10
    if -4 ≤ e ∧ e < 2 then
      let body :=
        if e = 1 then natDigits d1 ++ natDigits d2
        else if e = 0 then stripTrailing (natDigits d1 ++ "." ++ natDigits d2)
        else
          -- e ∈ [-4, -1]: 0.00…d1d2
          let zeros := String.mk (List.replicate (-(e + 1)).toNat '0')
          stripTrailing ("0." ++ zeros ++ natDigits d1 ++ natDigits d2)
      sign ++ body
    else
      let mant := if d2 = 0 then natDigits d1
                  else natDigits d1 ++ "." ++ natDigits d2
      let esign := if e < 0 then "-" else "+"
      let eabs := e.natAbs
      let edig := if eabs < 10 then "0" ++ natDigits eabs else natDigits eabs
      sign ++ mant ++ "e" ++ esign ++ edig

/-- `Figure._fmt` applied to an axis value.  Formatting a string with the
float format code `.2g` is a Python `ValueError`. -/
def fmtValue : Value → Except FigError String
  | .num q => .ok (fmtG2 q)
  | .cat _ => .error .formatError

/-! ## Scales

Modelled from the spec (§4.1), standing in for the `LinearScale` and
`NominalScale` classes of the missing `scales` module.  A scale is always
constructed fitted here (the Figure code always calls `fit` before
`transform`, so the `NotFittedError` path is unreachable in this embedding).
-/

/-- Modelled from the spec: a fitted scale.  `linear` carries the numeric
domain `[dmin, dmax]` and target range; `transform` is the affine map
`tmin + (v - dmin)/(dmax - dmin) * (tmax - tmin)`, with a degenerate domain
mapped to the midpoint of the target range.  `nominal` carries the distinct
labels in stable (first-occurrence) order; the i-th label maps to
`tmin + i * (tmax - tmin)/(n - 1)` (`n = 1` maps to `tmin`). -/
inductive Scale where
  | linear (dmin dmax tmin tmax : ℚ)
  | nominal (labels : List Value) (tmin tmax : ℚ)
  deriving Repr, DecidableEq

namespace Scale

/-- Modelled from the spec: `LinearScale.fit(values, target_min, target_max)`
computes the numeric domain as the min/max of the supplied values. -/
def fitLinear (values : List Value) (tmin tmax : ℚ) : Except FigError Scale := do
  let mn ← (← pyMinV values).toNum
  let mx ← (← pyMaxV values).toNum
  pure (.linear mn mx tmin tmax)

/-- Modelled from the spec: `NominalScale.fit(values, target_min, target_max)`
records each distinct label, in the stable first-occurrence order. -/
def fitNominal (values : List Value) (tmin tmax : ℚ) : Except FigError Scale :=
  .ok (.nominal (pyDedup values) tmin tmax)

/-- Modelled from the spec: `transform` of a single value.  A label not
present in the fitted categorical domain is the spec's
`UnknownCategoryError`. -/
def transform : Scale → Value → Except FigError ℚ
  | .linear dmin dmax tmin tmax, v => do
    let q ← v.toNum
    if dmin = dmax then pure ((tmin + tmax) / 2)
    else pure (tmin + (q - dmin) / (dmax - dmin) * (tmax - tmin))
  | .nominal labels tmin tmax, v =>
    match labels.indexOf? v with
    | none => .error .unknownCategory
    | some i =>
      if labels.length ≤ 1 then .ok tmin
      else .ok (tmin + (i : ℚ) * (tmax - tmin) / ((labels.length : ℚ) - 1))

/-- `transform` applied elementwise to a collection. -/
def transformL (sc : Scale) (vs : List Value) : Except FigError (List ℚ) :=
  vs.mapM sc.transform

end Scale

/-! ## Canvas

`Figure.draw` allocates `np.empty((height, width), dtype="U1")` and writes
into it through integer indices (Python negative indexing: `-k` counts from
the end, out of range raises `IndexError`) and slices (Python clipping: a
negative bound is shifted by the length, then both bounds are clamped to
`[0, len]`).  A numpy slice assignment from a list requires the lengths to
match exactly (`ValueError` otherwise); assignment from a single character
broadcasts. -/

/-- Resolve a Python integer index against a length; `IndexError` when out of
range. -/
def pyIdx (len : ℕ) (i : ℤ) : Except FigError ℕ :=
  if 0 ≤ (if i < 0 then i + len else i) ∧ (if i < 0 then i + len else i) < len
  then .ok (if i < 0 then i + len else i).toNat
  else .error .indexOutOfRange

/-- Resolve Python slice bounds `[a:b]` against a length: shift negative
bounds by the length, clamp into `[0, len]`.  Returns the resolved
`(start, stop)` with `start ≤ stop ≤ len` (an empty range when
`stop ≤ start`). -/
def pySlice (len : ℕ) (a b : ℤ) : ℕ × ℕ :=
  let a' := min (max (if a < 0 then a + len else a) 0) len
  let b' := min (max (if b < 0 then b + len else b) 0) len
  (a'.toNat, max a'.toNat b'.toNat)

/-- The list of row/column indices a resolved Python slice covers. -/
def pySliceList (len : ℕ) (a b : ℤ) : List ℕ :=
  let p := pySlice len a b
  (List.range (p.2 - p.1)).map (· + p.1)

/-- Python `list[i]` with negative indexing. -/
def pyGet (l : List Value) (i : ℤ) : Except FigError Value := do
  let j ← pyIdx l.length i
  match l.get? j with
  | some v => pure v
  | none => .error .indexOutOfRange

/-- The character grid: `height` rows (row 0 at the top) of `width`
characters. -/
abbrev Canvas := List (List Char)

namespace Canvas

/-- `np.empty((h, w))` filled with spaces; a negative dimension is a numpy
`ValueError`. -/
def alloc (h w : ℤ) : Except FigError Canvas :=
  if h < 0 ∨ w < 0 then .error .invalidShape
  else .ok (List.replicate h.toNat (List.replicate w.toNat ' '))

/-- The character at (resolved) row `r`, column `k`. -/
def cellAt (c : Canvas) (r k : ℕ) : Option Char :=
  (List.get? c r).bind (fun row => List.get? row k)

/-- Replace position `k` of a list (in-range by construction of callers). -/
def setAt (row : List Char) (k : ℕ) (ch : Char) : List Char :=
  row.set k ch

/-- `canvas[r, c] = ch` with Python index semantics on both coordinates. -/
def setCell (c : Canvas) (r k : ℤ) (ch : Char) : Except FigError Canvas := do
  let r' ← pyIdx c.length r
  match List.get? c r' with
  | none => .error .indexOutOfRange
  | some row => do
    let k' ← pyIdx row.length k
    pure (c.set r' (setAt row k' ch))

/-- `canvas[r, a:b] = ch` — broadcast a single character over a row
segment. -/
def setRowSegFill (c : Canvas) (r a b : ℤ) (ch : Char) :
    Except FigError Canvas := do
  let r' ← pyIdx c.length r
  match List.get? c r' with
  | none => .error .indexOutOfRange
  | some row =>
    let p := pySlice row.length a b
    let row' := (List.range row.length).map
      (fun k => if p.1 ≤ k ∧ k < p.2 then ch else row.getD k ' ')
    pure (c.set r' row')

/-- `canvas[r, a:b] = list(s)` — numpy requires `len(s)` to equal the resolved
slice length (`ValueError` otherwise; a length-1 list broadcasts). -/
def setRowSegList (c : Canvas) (r a b : ℤ) (s : List Char) :
    Except FigError Canvas := do
  let r' ← pyIdx c.length r
  match List.get? c r' with
  | none => .error .indexOutOfRange
  | some row =>
    let p := pySlice row.length a b
    if s.length = p.2 - p.1 then
      let row' := (List.range row.length).map
        (fun k => if p.1 ≤ k ∧ k < p.2 then s.getD (k - p.1) ' '
                  else row.getD k ' ')
      pure (c.set r' row')
    else if s.length = 1 then
      setRowSegFill c r a b (s.headD ' ')
    else .error .shapeMismatch

/-- One step of a column write: place `ch` at column `k` of row index `r`. -/
def colWriteStep (k : ℤ) (ch : Char) (acc : Canvas) (r : ℕ) :
    Except FigError Canvas :=
  match List.get? acc r with
  | none => .error .indexOutOfRange
  | some row => do
    let k' ← pyIdx row.length k
    pure (acc.set r (setAt row k' ch))

/-- `canvas[a:b, k] = ch` — broadcast a single character over a column
segment. -/
def setColSegFill (c : Canvas) (a b k : ℤ) (ch : Char) :
    Except FigError Canvas :=
  (pySliceList c.length a b).foldlM (colWriteStep k ch) c

/-- `canvas[a:b, k] = list(s)` — write a string down a column segment;
numpy requires the lengths to match. -/
def setColSegList (c : Canvas) (a b k : ℤ) (s : List Char) :
    Except FigError Canvas := do
  let rows := pySliceList c.length a b
  if s.length = rows.length then
    (List.zip rows s).foldlM (fun acc rc => do
      match List.get? acc rc.1 with
      | none => .error .indexOutOfRange
      | some row => do
        let k' ← pyIdx row.length k
        pure (acc.set rc.1 (setAt row k' rc.2))) c
  else if s.length = 1 then
    setColSegFill c a b k (s.headD ' ')
  else .error .shapeMismatch

/-- Serialize: `"\n".join("".join(row) for row in canvas)`. -/
def serialize (c : Canvas) : String :=
  String.intercalate "\n" (c.map (fun row => String.mk row))

end Canvas

/-- Python `str.ljust(n, fill)`: pad on the right up to `n`; a string already
at least `n` long is returned unchanged. -/
def pyLjust (s : List Char) (n : ℕ) (fill : Char) : List Char :=
  s ++ List.replicate (n - s.length) fill

/-- Python `str.rjust(n, fill)`. -/
def pyRjust (s : List Char) (n : ℕ) (fill : Char) : List Char :=
  List.replicate (n - s.length) fill ++ s

/-- Python `str.center(n, fill)`: the left margin is `(n - len) // 2`, plus
one when both the margin and `n` are odd (CPython's rule). -/
def pyCenter (s : List Char) (n : ℕ) (fill : Char) : List Char :=
  if n ≤ s.length then s
  else
    let marg := n - s.length
    let left := marg / 2 + (if marg % 2 = 1 ∧ n % 2 = 1 then 1 else 0)
    List.replicate left fill ++ s ++ List.replicate (marg - left) fill

/-- Python `s[:k]` on a string (a negative `k` counts from the end, bounds are
clamped). -/
def pyTake (s : List Char) (k : ℤ) : List Char :=
  let stop := min (max (if k < 0 then k + s.length else k) 0) (s.length : ℤ)
  s.take stop.toNat

namespace Canvas

/-- `Figure._center_draw(string, canvas[r, a:b], fillchar)`: numpy writes
`list(string.center(len(view), fillchar))` through the row-segment view; a
string longer than the view makes the lengths mismatch (`ValueError`). -/
def centerRow (c : Canvas) (r a b : ℤ) (s : List Char) (fill : Char) :
    Except FigError Canvas := do
  let r' ← pyIdx c.length r
  match List.get? c r' with
  | none => .error .indexOutOfRange
  | some row =>
    let p := pySlice row.length a b
    setRowSegList c r a b (pyCenter s (p.2 - p.1) fill)

/-- `Figure._ljust_draw` into a row segment. -/
def ljustRow (c : Canvas) (r a b : ℤ) (s : List Char) (fill : Char) :
    Except FigError Canvas := do
  let r' ← pyIdx c.length r
  match List.get? c r' with
  | none => .error .indexOutOfRange
  | some row =>
    let p := pySlice row.length a b
    setRowSegList c r a b (pyLjust s (p.2 - p.1) fill)

/-- `Figure._rjust_draw` into a row segment. -/
def rjustRow (c : Canvas) (r a b : ℤ) (s : List Char) (fill : Char) :
    Except FigError Canvas := do
  let r' ← pyIdx c.length r
  match List.get? c r' with
  | none => .error .indexOutOfRange
  | some row =>
    let p := pySlice row.length a b
    setRowSegList c r a b (pyRjust s (p.2 - p.1) fill)

/-- `Figure._center_draw(string, canvas[a:b, k])`: the column-segment
variant (used for the vertical y-axis label). -/
def centerCol (c : Canvas) (a b k : ℤ) (s : List Char) (fill : Char) :
    Except FigError Canvas :=
  let n := (pySliceList c.length a b).length
  setColSegList c a b k (pyCenter s n fill)

end Canvas

/-- Modelled from the spec: `plot_line_segment` from the missing `utils`
module (§4.3) — an 8-connected discrete line from `(x0, y0)` to `(x1, y1)`
inclusive, computed with integer-only arithmetic (Bresenham).  The fuel
argument bounds the recursion by `|dx| + |dy| + 1` steps, enough to reach the
endpoint. -/
def bresAux (x1 y1 dx dy sx sy : ℤ) :
    ℕ → ℤ → ℤ → ℤ → List (ℤ × ℤ)
  | 0, _, _, _ => []
  | fuel + 1, x, y, err =>
    (x, y) ::
      (if x = x1 ∧ y = y1 then []
       else
         let e2 := 2 * err
         let p₁ : ℤ × ℤ := if e2 ≥ dy then (x + sx, err + dy) else (x, err)
         let p₂ : ℤ × ℤ := if e2 ≤ dx then (y + sy, p₁.2 + dx) else (y, p₁.2)
         bresAux x1 y1 dx dy sx sy fuel p₁.1 p₂.1 p₂.2)

/-- Modelled from the spec: `plot_line_segment(x0, y0, x1, y1)`. -/
def plot_line_segment (x0 y0 x1 y1 : ℤ) : List (ℤ × ℤ) :=
  let dx := |x1 - x0|
  let dy := -|y1 - y0|
  let sx : ℤ := if x0 < x1 then 1 else -1
  let sy : ℤ := if y0 < y1 then 1 else -1
  bresAux x1 y1 dx dy sx sy ((dx - dy).toNat + 1) x0 y0 (dx + dy)

/-! ## The Figure -/

/-- The four plot primitives.  Following the spec's design note, the deferred
drawing closures of `figure.py` are embedded as a tagged variant dispatched at
draw time. -/
inductive PlotKind where
  | scatter
  | line
  | bar
  | hbar
  deriving Repr, DecidableEq

/-- A registered plot entry: the immutable snapshot of
`(kind, x, y, marker)` captured at registration time (`Figure._plots`
stores `partial(draw_…, x=x, y=y, marker=marker)`). -/
structure PlotEntry where
  kind : PlotKind
  x : List Value
  y : List Value
  marker : Char
  deriving Repr, DecidableEq

/-- Python truthiness of an optional string: `None` and `""` are falsy. -/
def truthy : Option String → Bool
  | none => false
  | some s => s ≠ ""

/-- `bool(...)` of an optional string, as an integer. -/
def boolI (o : Option String) : ℤ :=
  if truthy o then 1 else 0

/-- The `Figure` state: configuration, the registered plots and legend
entries, and the lazily cached derived values (`functools.cached_property`
computes each of `_ytick_values`, `_xtick_values`, `_yax_width`, `_yscale`,
`_xscale` once on first access and stores it on the instance). -/
structure Figure where
  xlabel : Option String
  ylabel : Option String
  title : Option String
  legendloc : String
  xticklabel_length : ℤ
  width : ℤ
  height : ℤ
  plots : List PlotEntry
  labels : List (Char × String)
  cYticks : Option (List Value) := none
  cXticks : Option (List Value) := none
  cYaxWidth : Option ℤ := none
  cYscale : Option Scale := none
  cXscale : Option Scale := none
  deriving Repr, DecidableEq

namespace Figure

/-- `Figure.__init__`.  `term` is the environment's reported terminal
`(width, height)` (an external collaborator); one row of the height is
reserved for the prompt.  A falsy `width`/`height` argument (absent or `0`)
falls back to the terminal size.  Note: no validation of any configuration
value happens here — the constructor only stores its arguments. -/
def init (xlabel ylabel title : Option String) (width height : Option ℤ)
    (legendloc : String) (xticklabel_length : ℤ) (term : ℤ × ℤ) : Figure :=
  { xlabel := xlabel, ylabel := ylabel, title := title,
    legendloc := legendloc, xticklabel_length := xticklabel_length,
    width := match width with
      | some w => if w = 0 then term.1 else w
      | none => term.1,
    height := match height with
      | some h => if h = 0 then term.2 - 1 else h
      | none => term.2 - 1,
    plots := [], labels := [] }

/-- The `Figure.x` property: all x values across the registered plots, in
registration order. -/
def x (s : Figure) : List Value :=
  s.plots.flatMap PlotEntry.x

/-- The `Figure.y` property. -/
def y (s : Figure) : List Value :=
  s.plots.flatMap PlotEntry.y

/-- `Figure._xax_height`: `2 + bool(self.xlabel)`. -/
def xaxHeight (s : Figure) : ℤ :=
  2 + boolI s.xlabel

/-- The computation behind the `_ytick_values` cached property: numeric data
uses `best_ticks(min(y), max(y), most=height // 2)`; categorical data uses
the full distinct label set `set(self.y)` (stable first-occurrence order, see
`pyDedup`). -/
def computeYticks (s : Figure) : Except FigError (List Value) :=
  if isNumerical s.y then do
    let mn ← (← pyMinV s.y).toNum
    let mx ← (← pyMaxV s.y).toNum
    let t ← best_ticks mn mx (s.height.fdiv 2)
    pure (t.map Value.num)
  else pure (pyDedup s.y)

/-- The computation behind `_xtick_values`:
`best_ticks(min(x), max(x), most=width // xticklabel_length)` for numeric
data, `set(self.x)` for categorical.  A zero `xticklabel_length` would be a
Python `ZeroDivisionError`, modelled as `typeError` here. -/
def computeXticks (s : Figure) : Except FigError (List Value) :=
  if isNumerical s.x then do
    let mn ← (← pyMinV s.x).toNum
    let mx ← (← pyMaxV s.x).toNum
    if s.xticklabel_length = 0 then .error .typeError
    else do
      let t ← best_ticks mn mx (s.width.fdiv s.xticklabel_length)
      pure (t.map Value.num)
  else pure (pyDedup s.x)

/-- The computation behind `_yax_width`: the widest formatted y tick label,
plus one column for tick marks, plus two if a y label is configured. -/
def computeYaxWidth (s : Figure) (yt : List Value) : Except FigError ℤ := do
  let labels ← yt.mapM fmtValue
  match labels.map String.length with
  | [] => .error .emptyData
  | n :: ns => pure ((ns.foldl max n : ℕ) + 1 + boolI s.ylabel * 2)

/-- The computation behind `_yscale`: fit against the data, then (numeric
case) refit against the tick values.  The target range is rows
`[_xax_height - bool(xlabel) + 1, height - 1 - bool(title)]`. -/
def computeYscale (s : Figure) (yt : List Value) : Except FigError Scale :=
  let tmin : ℚ := ((s.xaxHeight - boolI s.xlabel + 1 : ℤ) : ℚ)
  let tmax : ℚ := ((s.height - 1 - boolI s.title : ℤ) : ℚ)
  if isNumerical s.y then do
    let _ ← Scale.fitLinear s.y tmin tmax
    Scale.fitLinear yt tmin tmax
  else Scale.fitNominal s.y tmin tmax

/-- The computation behind `_xscale`: target range `[_yax_width, width - 1]`,
fit against the data, then (numeric case) refit against the tick values. -/
def computeXscale (s : Figure) (yaxw : ℤ) (xt : List Value) :
    Except FigError Scale :=
  let tmin : ℚ := (yaxw : ℚ)
  let tmax : ℚ := ((s.width - 1 : ℤ) : ℚ)
  if isNumerical s.x then do
    let _ ← Scale.fitLinear s.x tmin tmax
    Scale.fitLinear xt tmin tmax
  else Scale.fitNominal s.x tmin tmax

/-- Cached access to `_ytick_values`. -/
def getYticks (s : Figure) : Except FigError (List Value × Figure) :=
  match s.cYticks with
  | some t => .ok (t, s)
  | none => do
    let t ← computeYticks s
    pure (t, { s with cYticks := some t })

/-- Cached access to `_xtick_values`. -/
def getXticks (s : Figure) : Except FigError (List Value × Figure) :=
  match s.cXticks with
  | some t => .ok (t, s)
  | none => do
    let t ← computeXticks s
    pure (t, { s with cXticks := some t })

/-- Cached access to `_yax_width` (whose computation first touches
`_ytick_values`). -/
def getYaxWidth (s : Figure) : Except FigError (ℤ × Figure) :=
  match s.cYaxWidth with
  | some w => .ok (w, s)
  | none => do
    let (yt, s₁) ← getYticks s
    let w ← computeYaxWidth s₁ yt
    pure (w, { s₁ with cYaxWidth := some w })

/-- Cached access to `_yscale` (first touches `_ytick_values` for the
refit). -/
def getYscale (s : Figure) : Except FigError (Scale × Figure) :=
  match s.cYscale with
  | some sc => .ok (sc, s)
  | none => do
    let (yt, s₁) ← getYticks s
    let sc ← computeYscale s₁ yt
    pure (sc, { s₁ with cYscale := some sc })

/-- Cached access to `_xscale` (first touches `_yax_width` — the target
minimum — and `_xtick_values` for the refit). -/
def getXscale (s : Figure) : Except FigError (Scale × Figure) :=
  match s.cXscale with
  | some sc => .ok (sc, s)
  | none => do
    let (yw, s₁) ← getYaxWidth s
    let (xt, s₂) ← getXticks s₁
    let sc ← computeXscale s₂ yw xt
    pure (sc, { s₂ with cXscale := some sc })

/-- The bundle of derived values a draw pass reads. -/
structure Derived where
  yticks : List Value
  xticks : List Value
  yaxWidth : ℤ
  yscale : Scale
  xscale : Scale
  deriving Repr, DecidableEq

/-- Compute (or read from cache) every derived value a draw pass needs.  In
`figure.py` this happens on first touch inside `_draw_x_axis`/`_draw_y_axis`;
all five cached properties are populated during the first `draw` call. -/
def derive (s : Figure) : Except FigError (Derived × Figure) := do
  let (yt, s₁) ← getYticks s
  let (yw, s₂) ← getYaxWidth s₁
  let (xsc, s₃) ← getXscale s₂
  let (xt, s₄) ← getXticks s₃
  let (ysc, s₅) ← getYscale s₄
  pure (⟨yt, xt, yw, ysc, xsc⟩, s₅)

/-- The first lines of `_draw_x_axis`/`_draw_y_axis`:
`start = round(scale.transform(ticks[0]))`,
`end = round(scale.transform(ticks[-1]))`. -/
def axisRange (sc : Scale) (t : List Value) : Except FigError (ℤ × ℤ) := do
  let v0 ← pyGet t 0
  let vl ← pyGet t (-1)
  let p0 ← sc.transform v0
  let pl ← sc.transform vl
  pure (pyround p0, pyround pl)

/-- `Figure._draw_x_axis`. -/
def drawXAxis (s : Figure) (d : Derived) (c : Canvas) :
    Except FigError Canvas := do
  let se ← axisRange d.xscale d.xticks
  let start := se.1
  let stop := se.2
  let c ← Canvas.setRowSegFill c (-(s.xaxHeight)) start stop '-'
  let before := s.xticklabel_length.fdiv 2
  let after := s.xticklabel_length - before
  let ps ← d.xscale.transformL d.xticks
  let c ← (List.zip d.xticks ps).foldlM (fun c vp => do
    let pos := pyround vp.2
    let label ← fmtValue vp.1
    let c ← Canvas.setCell c (-(s.xaxHeight)) pos '+'
    if pos = start then
      Canvas.ljustRow c (-(s.xaxHeight) + 1) pos (pos + after)
        (pyTake label.data after) ' '
    else if pos = stop then
      Canvas.rjustRow c (-(s.xaxHeight) + 1) (pos - before) (pos + 1)
        (pyTake label.data (before + 1)) ' '
    else
      Canvas.centerRow c (-(s.xaxHeight) + 1) (pos - before) (pos + after)
        (pyTake label.data s.xticklabel_length) ' ') c
  if truthy s.xlabel then
    Canvas.centerRow c (-1) start stop
      (pyTake (s.xlabel.getD "").data (stop - start)) ' '
  else pure c

/-- `Figure._draw_y_axis`. -/
def drawYAxis (s : Figure) (d : Derived) (c : Canvas) :
    Except FigError Canvas := do
  let se ← axisRange d.yscale d.yticks
  let start := se.1
  let stop := se.2
  let c ← Canvas.setColSegFill c (-stop - 1) (-start) (d.yaxWidth - 1) '|'
  let ps ← d.yscale.transformL d.yticks
  let c ← (List.zip d.yticks ps).foldlM (fun c vp => do
    let pos := pyround vp.2 - 1
    let label ← fmtValue vp.1
    let c ← Canvas.setCell c (stop - pos) (d.yaxWidth - 1) '+'
    Canvas.rjustRow c (stop - pos) (boolI s.ylabel * 2) (d.yaxWidth - 1)
      label.data ' ') c
  if truthy s.ylabel then
    Canvas.centerCol c start stop 0
      (pyTake (s.ylabel.getD "").data (stop - start)) ' '
  else pure c

/-- The deferred `draw_scatter` closure: each transformed pair gets the
marker at `canvas[-round(yi)-1, round(xi)]`. -/
def drawScatter (xsc ysc : Scale) (x y : List Value) (m : Char)
    (c : Canvas) : Except FigError Canvas := do
  let xs ← xsc.transformL x
  let ys ← ysc.transformL y
  (List.zip xs ys).foldlM
    (fun c p => Canvas.setCell c (-(pyround p.2) - 1) (pyround p.1) m) c

/-- The deferred `draw_line` closure: rasterize between consecutive
transformed points. -/
def drawLine (xsc ysc : Scale) (x y : List Value) (m : Char)
    (c : Canvas) : Except FigError Canvas := do
  let xs ← xsc.transformL x
  let ys ← ysc.transformL y
  (List.zip (List.zip xs.dropLast xs.tail) (List.zip ys.dropLast ys.tail)).foldlM
    (fun c pp =>
      (plot_line_segment (pyround pp.1.1) (pyround pp.2.1)
          (pyround pp.1.2) (pyround pp.2.2)).foldlM
        (fun c q => Canvas.setCell c (-q.2 - 1) q.1 m) c) c

/-- The deferred `draw_bar` closure: for each pair, fill
`canvas[-round(yi)-1 : -int(bottom), round(xi)]` where
`bottom = yscale.transform(min(y))` — the bar is anchored at the transformed
series minimum. -/
def drawBar (xsc ysc : Scale) (x y : List Value) (m : Char)
    (c : Canvas) : Except FigError Canvas := do
  let bottom ← ysc.transform (← pyMinV y)
  let xs ← xsc.transformL x
  let ys ← ysc.transformL y
  (List.zip xs ys).foldlM
    (fun c p =>
      Canvas.setColSegFill c (-(pyround p.2) - 1) (-(pytrunc bottom))
        (pyround p.1) m) c

/-- The deferred `draw_hbar` closure: for each pair, fill
`canvas[-round(yi)-1, int(start):round(xi)]` where
`start = xscale.transform(min(x))`. -/
def drawHbar (xsc ysc : Scale) (x y : List Value) (m : Char)
    (c : Canvas) : Except FigError Canvas := do
  let start ← xsc.transform (← pyMinV x)
  let xs ← xsc.transformL x
  let ys ← ysc.transformL y
  (List.zip xs ys).foldlM
    (fun c p =>
      Canvas.setRowSegFill c (-(pyround p.2) - 1) (pytrunc start)
        (pyround p.1) m) c

/-- Execute one deferred plot entry. -/
def drawPlot (d : Derived) (c : Canvas) (e : PlotEntry) :
    Except FigError Canvas :=
  match e.kind with
  | .scatter => drawScatter d.xscale d.yscale e.x e.y e.marker c
  | .line => drawLine d.xscale d.yscale e.x e.y e.marker c
  | .bar => drawBar d.xscale d.yscale e.x e.y e.marker c
  | .hbar => drawHbar d.xscale d.yscale e.x e.y e.marker c

/-- The width of the legend box:
`max(max(len(marker + " " + label)) + 2, len("Legend") + 2)`. -/
def legendWidthN (labels : List (Char × String)) : ℕ :=
  max ((labels.map (fun ml => ml.2.length + 2)).foldl max 0 + 2)
    ("Legend".length + 2)

/-- The lines of the legend box, top border first:
`"+" + "Legend".center(width-2, "-") + "+"`, then
`"|" + (marker + " " + label).ljust(width-2) + "|"` per entry in registration
order, then the bottom border. -/
def legendBox (labels : List (Char × String)) : List (List Char) :=
  let w := legendWidthN labels
  ('+' :: (pyCenter "Legend".data (w - 2) '-' ++ ['+']))
    :: (labels.map (fun ml =>
        '|' :: (pyLjust ([ml.1, ' '] ++ ml.2.data) (w - 2) ' ' ++ ['|'])))
    ++ [('+' :: (List.replicate (w - 2) '-' ++ ['+']))]

/-- The legend's top row: `-int(yscale.transform(max(y))) - 1` when
`legendloc` starts with `"top"`, `-int(yscale.transform(min(y))) - height`
when it starts with `"bottom"`, otherwise the variable stays unbound
(`NameError`). -/
def legendTop (s : Figure) (d : Derived) : Except FigError ℤ :=
  if s.legendloc.startsWith "top" then do
    pure (-(pytrunc (← d.yscale.transform (← pyMaxV s.y))) - 1)
  else if s.legendloc.startsWith "bottom" then do
    pure (-(pytrunc (← d.yscale.transform (← pyMinV s.y))) -
      ((s.labels.length : ℤ) + 2))
  else .error .nameError

/-- The legend's left column, against the extreme transformed x position. -/
def legendLeft (s : Figure) (d : Derived) : Except FigError ℤ :=
  if s.legendloc.endsWith "right" then do
    pure (pytrunc (← d.xscale.transform (← pyMaxV s.x)) -
      (legendWidthN s.labels : ℤ) + 1)
  else if s.legendloc.endsWith "left" then do
    pure (pytrunc (← d.xscale.transform (← pyMinV s.x)))
  else .error .nameError

/-- `Figure._draw_legend`.  The box is anchored against the data's extreme
transformed positions (`int(scale.transform(max/min(...)))`); a `legendloc`
matching neither `top`/`bottom` prefix nor `right`/`left` suffix leaves the
position unbound (Python `NameError`).  Row `top + i` receives line `i` of
`legendBox`; `max([])` on an empty label list is a Python ValueError
(`emptyData`), though `draw` only calls this with labels present. -/
def drawLegend (s : Figure) (d : Derived) (c : Canvas) :
    Except FigError Canvas := do
  if s.labels.isEmpty then .error .emptyData
  else do
    let top : ℤ ← legendTop s d
    let left : ℤ ← legendLeft s d
    (legendBox s.labels).enum.foldlM
      (fun c il => Canvas.setRowSegList c (top + il.1) left
        (left + (legendWidthN s.labels : ℤ)) il.2) c

/-- `Figure.draw`: allocate a blank canvas, draw the (truncated, centered)
title, both axes, the deferred plots in registration order, and the legend if
any labels were registered.  Returns the canvas together with the figure whose
caches the pass populated. -/
def draw (s : Figure) : Except FigError (Canvas × Figure) := do
  let c ← Canvas.alloc s.height s.width
  let c ← if truthy s.title then
      Canvas.centerRow c 0 0 s.width (pyTake (s.title.getD "").data s.width) ' '
    else pure c
  let (d, s') ← derive s
  let c ← drawXAxis s' d c
  let c ← drawYAxis s' d c
  let c ← s'.plots.foldlM (drawPlot d) c
  let c ← if s'.labels.isEmpty then pure c else drawLegend s' d c
  pure (c, s')

/-- `Figure.__repr__`: draw, then serialize the canvas row by row, joined
with newlines. -/
def render (s : Figure) : Except FigError (String × Figure) := do
  let (c, s') ← draw s
  pure (Canvas.serialize c, s')

/-- `Figure._prep`: `assert len(x) == len(y)`, truncate the marker to its
first character (`marker[0]`, an `IndexError` on an empty marker), and record
a legend entry when a (truthy) label was supplied. -/
def prep (s : Figure) (x y : List Value) (marker : String)
    (label : Option String) : Except FigError (Char × Figure) :=
  if x.length ≠ y.length then .error .mismatchedLength
  else match marker.data with
    | [] => .error .indexOutOfRange
    | m :: _ =>
      let s' := match label with
        | some l => if l ≠ "" then { s with labels := s.labels ++ [(m, l)] }
                    else s
        | none => s
      .ok (m, s')

/-- `Figure.scatter`: prep, then append the deferred entry. -/
def scatter (s : Figure) (x y : List Value) (marker : String := "o")
    (label : Option String := none) : Except FigError Figure := do
  let (m, s') ← prep s x y marker label
  pure { s' with plots := s'.plots ++ [⟨.scatter, x, y, m⟩] }

/-- `Figure.line`. -/
def line (s : Figure) (x y : List Value) (marker : String := "*")
    (label : Option String := none) : Except FigError Figure := do
  let (m, s') ← prep s x y marker label
  pure { s' with plots := s'.plots ++ [⟨.line, x, y, m⟩] }

/-- `Figure.bar`. -/
def bar (s : Figure) (x y : List Value) (marker : String := "#")
    (label : Option String := none) : Except FigError Figure := do
  let (m, s') ← prep s x y marker label
  pure { s' with plots := s'.plots ++ [⟨.bar, x, y, m⟩] }

/-- `Figure.hbar`. -/
def hbar (s : Figure) (x y : List Value) (marker : String := "#")
    (label : Option String := none) : Except FigError Figure := do
  let (m, s') ← prep s x y marker label
  pure { s' with plots := s'.plots ++ [⟨.hbar, x, y, m⟩] }

end Figure

/-! ## Concrete instances used to witness the theorems -/

/-- Shorthand for a list of numeric values. -/
def numsV (l : List ℚ) : List Value :=
  l.map Value.num

/-- Shorthand for a list of categorical values. -/
def catsV (l : List String) : List Value :=
  l.map Value.cat

/-- A `Figure(width=20, height=10)` with default legend location and x tick
label length, no axis labels, no title (terminal size `80×24`, irrelevant
because width and height are given). -/
def figDemo : Figure :=
  Figure.init none none none (some 20) (some 10) "topright" 7 (80, 24)

/-- `figDemo` after `scatter([1,2,3], [1,2,3])` with no label. -/
def figScatter : Figure :=
  (figDemo.scatter (numsV [1, 2, 3]) (numsV [1, 2, 3]) "o" none).toOption.getD
    figDemo

/-- `figDemo` after `scatter([1,2,3], [1,2,3], label="A")`. -/
def figLabeled : Figure :=
  (figDemo.scatter (numsV [1, 2, 3]) (numsV [1, 2, 3]) "o"
      (some "A")).toOption.getD figDemo

/-- A `Figure(width=20, height=4)` with `scatter([1,3], [1,3])`: its y-axis
tick budget is `4 // 2 = 2`, yet `best_ticks(1, 3, 2)` has three ticks. -/
def figBudget : Figure :=
  ((Figure.init none none none (some 20) (some 4) "topright" 7
      (80, 24)).scatter (numsV [1, 3]) (numsV [1, 3]) "o" none).toOption.getD
    figDemo

/-- A figure whose two axes both carry categorical data. -/
def figCat : Figure :=
  (figDemo.scatter (catsV ["a", "b", "a"]) (catsV ["u", "v", "u"]) "o"
      none).toOption.getD figDemo

/-- A figure with a categorical x axis but a numeric y axis — the typical
`bar(["a", "b"], [1, 2])` usage. -/
def figMixed : Figure :=
  (figDemo.bar (catsV ["a", "b"]) (numsV [1, 2]) "#" none).toOption.getD
    figDemo

/-! ## C2: mismatched lengths reject the registration -/

/-- C2.  For every pair of sequences with `len(x) != len(y)`, each of the four
registration operations fails with `MismatchedLengthError` (the failed
`assert len(x) == len(y)` in `Figure._prep`, which executes before any state
mutation).  Because every registration operation returns either a new figure
or an error — and here it returns the error — the figure's registered plots
and legend entries are unchanged. -/
theorem mismatched_length_rejected (s : Figure) (x y : List Value)
    (marker : String) (label : Option String) (h : x.length ≠ y.length) :
    Figure.scatter s x y marker label = .error .mismatchedLength ∧
    Figure.line s x y marker label = .error .mismatchedLength ∧
    Figure.bar s x y marker label = .error .mismatchedLength ∧
    Figure.hbar s x y marker label = .error .mismatchedLength := by
  refine ⟨?_, ?_, ?_, ?_⟩ <;>
    simp [Figure.scatter, Figure.line, Figure.bar, Figure.hbar, Figure.prep,
      h, Bind.bind, Except.bind]

/-- Witness for C2: `scatter([1,2],[1,2,3])` on a freshly constructed figure
fails with `MismatchedLengthError`, and the figure (being unchanged) still has
zero registered plots and zero legend entries. -/
theorem mismatched_length_rejected_witness :
    (numsV [1, 2]).length ≠ (numsV [1, 2, 3]).length ∧
    Figure.scatter figDemo (numsV [1, 2]) (numsV [1, 2, 3]) "o" none =
      .error .mismatchedLength ∧
    figDemo.plots = [] ∧ figDemo.labels = [] :=
  ⟨by decide,
   (mismatched_length_rejected figDemo (numsV [1, 2]) (numsV [1, 2, 3]) "o"
      none (by decide)).1,
   rfl, rfl⟩

/-! ## C8: markers are truncated to their first character -/

/-- C8.  A registration with a non-empty marker string succeeds (given equal
lengths), and both the recorded plot entry and the legend entry (when a
truthy label is supplied) carry only the first character of the marker
(`marker = marker[0]` in `Figure._prep`); the rest of the marker string is
discarded.  The draw-time closures read exactly that stored character. -/
theorem marker_truncated_to_first_char (s : Figure) (x y : List Value)
    (m : Char) (rest : List Char) (label : Option String)
    (hlen : x.length = y.length) :
    let marker : String := ⟨m :: rest⟩
    let delta := match label with
      | some l => if l ≠ "" then [(m, l)] else []
      | none => []
    Figure.scatter s x y marker label =
      .ok { s with labels := s.labels ++ delta,
                   plots := s.plots ++ [⟨.scatter, x, y, m⟩] } ∧
    Figure.line s x y marker label =
      .ok { s with labels := s.labels ++ delta,
                   plots := s.plots ++ [⟨.line, x, y, m⟩] } ∧
    Figure.bar s x y marker label =
      .ok { s with labels := s.labels ++ delta,
                   plots := s.plots ++ [⟨.bar, x, y, m⟩] } ∧
    Figure.hbar s x y marker label =
      .ok { s with labels := s.labels ++ delta,
                   plots := s.plots ++ [⟨.hbar, x, y, m⟩] } := by
  refine ⟨?_, ?_, ?_, ?_⟩ <;>
    · simp only [Figure.scatter, Figure.line, Figure.bar, Figure.hbar,
        Figure.prep, hlen, ne_eq, not_true_eq_false, if_false, ite_false]
      cases label with
      | none =>
        simp only [Bind.bind, Except.bind, List.append_nil]
        rfl
      | some l =>
        by_cases hl : l = "" <;>
          · simp only [hl, Bind.bind, Except.bind, ne_eq, not_true_eq_false,
              not_false_eq_true, ite_true, ite_false, List.append_nil]
            rfl

/-- Witness for C8: registering with the two-character marker `"ab"` records
the single marker character `'a'` in both the plot entry and the legend
entry. -/
theorem marker_truncated_witness :
    Figure.scatter figDemo (numsV [1]) (numsV [1]) ⟨['a', 'b']⟩ (some "L") =
      .ok { figDemo with labels := [('a', "L")],
                         plots := [⟨.scatter, numsV [1], numsV [1], 'a'⟩] } :=
  (marker_truncated_to_first_char figDemo (numsV [1]) (numsV [1]) 'a' ['b']
    (some "L") (by decide)).1

/-! ## C6: construction does not validate its configuration -/

/-- Counterexample to C6.  `Figure.__init__` performs no validation at all:
constructing a figure with `width = -1`, `height = -1`, the unrecognized
legend location `"middle"` and `xticklabel_length = 0` raises nothing — it
returns an ordinary `Figure` that stores those invalid values and accepts
registrations, contradicting the claim that construction fails with
`ConfigurationError`. -/
theorem init_no_validation_counterexample :
    (Figure.init none none none (some (-1)) (some (-1)) "middle" 0
        (80, 24)).width = -1 ∧
    (Figure.init none none none (some (-1)) (some (-1)) "middle" 0
        (80, 24)).height = -1 ∧
    (Figure.init none none none (some (-1)) (some (-1)) "middle" 0
        (80, 24)).legendloc = "middle" ∧
    (Figure.init none none none (some (-1)) (some (-1)) "middle" 0
        (80, 24)).xticklabel_length = 0 ∧
    (∃ s', Figure.scatter
        (Figure.init none none none (some (-1)) (some (-1)) "middle" 0
          (80, 24)) (numsV [1]) (numsV [1]) "o" none = .ok s') := by
  refine ⟨rfl, rfl, rfl, rfl, ⟨_, rfl⟩⟩

/-- C6 as amended: construction never fails.  `Figure.__init__` stores the
supplied configuration unconditionally — any `legendloc` string and any
`xticklabel_length` are kept as given, a falsy (`None` or `0`)
`width`/`height` falls back to the environment's terminal size (minus one
height row for the prompt), and every other value including negative ones is
stored as-is; the figure starts with no plots, no legend entries and empty
caches.  Invalid configuration surfaces only later, at draw time. -/
theorem init_stores_configuration (xl yl tl : Option String)
    (w h : Option ℤ) (ll : String) (xtl : ℤ) (term : ℤ × ℤ) :
    Figure.init xl yl tl w h ll xtl term =
      { xlabel := xl, ylabel := yl, title := tl, legendloc := ll,
        xticklabel_length := xtl,
        width := match w with
          | some v => if v = 0 then term.1 else v
          | none => term.1,
        height := match h with
          | some v => if v = 0 then term.2 - 1 else v
          | none => term.2 - 1,
        plots := [], labels := [] } := rfl

/-! ## C10: tick-count budgets -/

/-- Counterexample to C10.  The budget handed to the tick selector for the
y axis is indeed `height // 2` (here `4 // 2 = 2`), but the spec's own
`best_ticks` algorithm widens the range to bounding multiples of the step, so
for data `[1, 3]` it returns the three ticks `[0, 2, 4]` — the number of
ticks on the axis *exceeds* the budget, contradicting the claim's "never
exceeds" part. -/
theorem tick_budget_exceeded_counterexample :
    figBudget.height.fdiv 2 = 2 ∧
    Figure.computeYticks figBudget = .ok (numsV [0, 2, 4]) ∧
    2 < (numsV [0, 2, 4]).length := by
  refine ⟨rfl, by with_unfolding_all decide, by decide⟩

/-- C10 as amended: for numeric axes the maximum tick count *requested* from
the tick selector is `height // 2` (y axis) and
`width // xticklabel_length` (x axis, guarded by the zero-divisor check), but
the returned tick sequence may be longer than that budget, because
`best_ticks` extends to the bounding step multiples. -/
theorem tick_budget_arguments (s : Figure)
    (hy : isNumerical s.y = true) (hx : isNumerical s.x = true) :
    (Figure.computeYticks s = do
      let mn ← (← pyMinV s.y).toNum
      let mx ← (← pyMaxV s.y).toNum
      let t ← best_ticks mn mx (s.height.fdiv 2)
      pure (t.map Value.num)) ∧
    (Figure.computeXticks s = do
      let mn ← (← pyMinV s.x).toNum
      let mx ← (← pyMaxV s.x).toNum
      if s.xticklabel_length = 0 then .error .typeError
      else do
        let t ← best_ticks mn mx (s.width.fdiv s.xticklabel_length)
        pure (t.map Value.num)) ∧
    (∃ s' : Figure, isNumerical s'.y = true ∧
      ∃ t, Figure.computeYticks s' = .ok t ∧ s'.height.fdiv 2 < (t.length : ℤ)) := by
  refine ⟨by simp [Figure.computeYticks, hy], by simp [Figure.computeXticks, hx], ?_⟩
  refine ⟨figBudget, by decide, numsV [0, 2, 4], by with_unfolding_all decide,
    by decide⟩

/-- Witness for C10's amended theorem at the concrete figure `figScatter`
(numeric data on both axes). -/
theorem tick_budget_arguments_witness :
    isNumerical (Figure.y figScatter) = true ∧
    isNumerical (Figure.x figScatter) = true ∧
    Figure.computeYticks figScatter = .ok (numsV [1, 3/2, 2, 5/2, 3]) := by
  refine ⟨by decide, by decide, ?_⟩
  have h := (tick_budget_arguments figScatter (by decide) (by decide)).1
  rw [h]
  with_unfolding_all decide

/-! ## C9: the 20×10 scatter scenario -/

/-- The output `render` produces for `figScatter`. -/
def out20x10 : String :=
  "   |           o    \n  3+                \n2.5+                \n   |        o       \n  2+                \n   |                \n1.5+    o           \n  1+                \n    +-------+------+\n    0       2      4"

/-- `figScatter` with the caches the first draw pass populates. -/
def figScatterDrawn : Figure :=
  { figScatter with
    cYticks := some (numsV [1, 3/2, 2, 5/2, 3]),
    cXticks := some (numsV [0, 2, 4]),
    cYaxWidth := some 4,
    cYscale := some (.linear 1 3 3 9),
    cXscale := some (.linear 0 4 4 19) }

set_option maxRecDepth 40000 in
/-- C9.  For `Figure(width=20, height=10)` with the single registration
`scatter([1,2,3], [1,2,3])` and no labels, rendering succeeds and the output
splits on newlines into exactly 10 lines of exactly 20 characters each. -/
theorem render_20x10_scenario :
    Figure.render figScatter = .ok (out20x10, figScatterDrawn) ∧
    (out20x10.splitOn "\n").length = 10 ∧
    ∀ l ∈ out20x10.splitOn "\n", l.length = 20 := by
  refine ⟨by with_unfolding_all decide, by with_unfolding_all decide,
    by with_unfolding_all decide⟩

/-! ## Helper lemmas about Python indexing and padding -/

theorem pyGet_zero (l : List Value) (h : l ≠ []) : pyGet l 0 = .ok (l.head h) := by
  have hl : 0 < l.length := List.length_pos.2 h
  unfold pyGet pyIdx
  simp only [show ¬((0:ℤ) < 0) by decide, if_false, Int.toNat_zero]
  rw [if_pos ⟨le_refl 0, by exact_mod_cast hl⟩]
  cases l with
  | nil => exact absurd rfl h
  | cons a t =>
    simp only [List.get?_cons_zero, Bind.bind, Except.bind, List.head]
    rfl

theorem pyGet_neg_one (l : List Value) (h : l ≠ []) :
    pyGet l (-1) = .ok (l.getLast h) := by
  have hl : 0 < l.length := List.length_pos.2 h
  have hget : l[l.length - 1]? = some (l.getLast h) := by
    rw [← List.getLast?_eq_getElem?, List.getLast?_eq_getLast_of_ne_nil h]
  unfold pyGet pyIdx
  simp only [show ((-1:ℤ) < 0) by decide, if_true]
  rw [if_pos (by constructor <;> omega)]
  have ht : ((-1 : ℤ) + l.length).toNat = l.length - 1 := by omega
  rw [ht]
  simp only [Bind.bind, Except.bind, List.get?_eq_getElem?, hget]
  rfl

theorem pyLjust_length (s : List Char) (n : ℕ) (f : Char) :
    (pyLjust s n f).length = max s.length n := by
  simp only [pyLjust, List.length_append, List.length_replicate]
  omega

theorem pyRjust_length (s : List Char) (n : ℕ) (f : Char) :
    (pyRjust s n f).length = max s.length n := by
  simp only [pyRjust, List.length_append, List.length_replicate]
  omega

theorem pyCenter_length (s : List Char) (n : ℕ) (f : Char) :
    (pyCenter s n f).length = max s.length n := by
  unfold pyCenter
  split
  · omega
  · simp only [List.length_append, List.length_replicate]
    split <;> omega

theorem pyTake_length_le (s : List Char) (k : ℤ) (hk : 0 ≤ k) :
    ((pyTake s k).length : ℤ) ≤ k := by
  unfold pyTake
  simp only [List.length_take]
  rw [if_neg (by omega)]
  push_cast
  omega

/-! ## C1: categorical tick sets -/

/-- C1.  For an axis whose supplied values are classified as categorical
(`is_numerical` false), the tick set is the full set of distinct labels in the
stable first-occurrence order (`set(...)` embedded as `pyDedup`), whatever the
height/width/`xticklabel_length` configuration — the budget `most` is never
consulted on the categorical branch.  The property holds per axis: the y
conjunct assumes only that the y values are categorical and the x conjunct
only that the x values are, so a figure mixing a categorical axis with a
numeric one is covered for its categorical axis.  The first steps of the
axis drawers read exactly the first (`[0]`) and last (`[-1]`) elements of
the tick set: `axisRange` is invariant under replacing the tick list by just
its first and last elements. -/
theorem categorical_ticks_full_label_set (s : Figure) :
    (isNumerical s.y = false →
      ∀ hh : ℤ, Figure.computeYticks { s with height := hh } = .ok (pyDedup s.y)) ∧
    (isNumerical s.x = false →
      ∀ ww tl : ℤ,
        Figure.computeXticks { s with width := ww, xticklabel_length := tl } =
          .ok (pyDedup s.x)) ∧
    (∀ (sc : Scale) (t : List Value) (h : t ≠ []),
      Figure.axisRange sc t = Figure.axisRange sc [t.head h, t.getLast h]) := by
  refine ⟨?_, ?_, ?_⟩
  · intro hy hh
    have hyy : ({ s with height := hh } : Figure).y = s.y := rfl
    unfold Figure.computeYticks
    rw [hyy, hy]
    simp only [Bool.false_eq_true, if_false]
    rfl
  · intro hx ww tl
    have hxx : ({ s with width := ww, xticklabel_length := tl } : Figure).x = s.x := rfl
    unfold Figure.computeXticks
    rw [hxx, hx]
    simp only [Bool.false_eq_true, if_false]
    rfl
  · intro sc t h
    have h2 : ([t.head h, t.getLast h] : List Value) ≠ [] := by simp
    unfold Figure.axisRange
    rw [pyGet_zero t h, pyGet_neg_one t h, pyGet_zero _ h2, pyGet_neg_one _ h2]
    simp [List.getLast]

/-- Witness for C1 at `figCat` (categorical data on both axes) and at
`figMixed` (categorical x, numeric y): on `figCat` the y tick set is the two
distinct labels `["u", "v"]` in first-occurrence order for either height and
the x tick set is `["a", "b"]`; on `figMixed` the categorical x axis alone
yields its full label set `["a", "b"]` even though the y axis is numeric. -/
theorem categorical_ticks_witness :
    isNumerical (Figure.y figCat) = false ∧
    isNumerical (Figure.x figCat) = false ∧
    isNumerical (Figure.x figMixed) = false ∧
    isNumerical (Figure.y figMixed) = true ∧
    Figure.computeYticks { figCat with height := 3 } =
      .ok (pyDedup (Figure.y figCat)) ∧
    Figure.computeYticks { figCat with height := 1000 } =
      .ok (pyDedup (Figure.y figCat)) ∧
    Figure.computeXticks { figCat with width := 5, xticklabel_length := 1 } =
      .ok (pyDedup (Figure.x figCat)) ∧
    Figure.computeXticks { figMixed with width := 5, xticklabel_length := 1 } =
      .ok (pyDedup (Figure.x figMixed)) ∧
    pyDedup (Figure.y figCat) = catsV ["u", "v"] ∧
    pyDedup (Figure.x figMixed) = catsV ["a", "b"] := by
  have h := categorical_ticks_full_label_set figCat
  have hm := categorical_ticks_full_label_set figMixed
  exact ⟨by decide, by decide, by with_unfolding_all decide,
    by with_unfolding_all decide,
    h.1 (by decide) 3, h.1 (by decide) 1000, h.2.1 (by decide) 5 1,
    hm.2.1 (by with_unfolding_all decide) 5 1,
    by decide, by with_unfolding_all decide⟩

/-! ## C7: drawing with no registered plots -/

theorem pyIdx_zero (len : ℕ) (h : 0 < len) : pyIdx len 0 = .ok 0 := by
  unfold pyIdx
  simp only [show ¬((0:ℤ) < 0) by decide, if_false]
  rw [if_pos ⟨le_refl 0, by exact_mod_cast h⟩]
  rfl

/-- The full-row slice `[0:w]` of a row of length `w` resolves to the whole
row. -/
theorem pySlice_full (w : ℕ) : pySlice w 0 (w : ℤ) = (0, w) := by
  unfold pySlice
  simp only [show ¬((0:ℤ) < 0) by decide, if_false,
    show ¬((w:ℤ) < 0) by omega, Prod.mk.injEq]
  constructor <;> omega

/-- Centering a short-enough string over the full top row of a blank canvas
succeeds (this is the title write of `Figure.draw`). -/
theorem centerRow_full_ok (h w : ℕ) (hh : 0 < h) (s : List Char)
    (hs : s.length ≤ w) :
    ∃ c', Canvas.centerRow (List.replicate h (List.replicate w ' '))
        0 0 (w : ℤ) s ' ' = .ok c' := by
  have hlen : (List.replicate h (List.replicate w ' ')).length = h :=
    List.length_replicate h _
  have hidx : pyIdx (List.replicate h (List.replicate w ' ')).length 0 = .ok 0 := by
    rw [hlen]; exact pyIdx_zero h hh
  have hrow : (List.replicate h (List.replicate w ' ')).get? 0 =
      some (List.replicate w ' ') := by
    rw [List.get?_eq_getElem?, List.getElem?_replicate, if_pos hh]
  unfold Canvas.centerRow Canvas.setRowSegList
  rw [hidx]
  simp only [Bind.bind, Except.bind, hrow, List.length_replicate, pySlice_full]
  rw [if_pos]
  · exact ⟨_, rfl⟩
  · rw [pyCenter_length]
    omega

/-- C7.  Invoking `draw` on a freshly constructed figure — zero registered
plot entries — fails with the spec's `EmptyDataError` (the `min()` of the
empty aggregated value sequence raised while computing the y tick values),
for any configuration whose stored height is positive and width nonnegative
(so that the canvas allocation and title write themselves do not fail
first). -/
theorem draw_without_plots_empty_data (xl yl tl : Option String)
    (wo ho : Option ℤ) (ll : String) (xtl : ℤ) (term : ℤ × ℤ)
    (hh : 0 < (Figure.init xl yl tl wo ho ll xtl term).height)
    (hw : 0 ≤ (Figure.init xl yl tl wo ho ll xtl term).width) :
    Figure.draw (Figure.init xl yl tl wo ho ll xtl term) =
      .error .emptyData := by
  set f := Figure.init xl yl tl wo ho ll xtl term with hf
  have hy : f.y = [] := rfl
  have hder : Figure.derive f = .error .emptyData := by
    have hcy : f.cYticks = none := rfl
    have hcomp : Figure.computeYticks f = .error .emptyData := by
      unfold Figure.computeYticks
      rw [hy]
      simp [isNumerical, pyMinV, Bind.bind, Except.bind]
    unfold Figure.derive Figure.getYticks
    rw [hcy]
    simp [hcomp, Bind.bind, Except.bind]
  have halloc : Canvas.alloc f.height f.width =
      .ok (List.replicate f.height.toNat (List.replicate f.width.toNat ' ')) := by
    unfold Canvas.alloc
    rw [if_neg (by omega)]
  unfold Figure.draw
  rw [halloc]
  simp only [Bind.bind, Except.bind]
  cases htitle : truthy f.title with
  | false =>
    simp only [Bool.false_eq_true, if_false, hder]
    rfl
  | true =>
    simp only [if_true]
    have hwcast : ((f.width.toNat : ℕ) : ℤ) = f.width := Int.toNat_of_nonneg hw
    have hs : (pyTake (f.title.getD "").data f.width).length ≤ f.width.toNat := by
      have := pyTake_length_le (f.title.getD "").data f.width hw
      omega
    obtain ⟨c', hc'⟩ := centerRow_full_ok f.height.toNat f.width.toNat
      (by omega) (pyTake (f.title.getD "").data f.width) hs
    rw [hwcast] at hc'
    rw [hc']
    simp only [hder]

/-- Witness for C7: drawing `figDemo` (constructed, nothing registered) fails
with `EmptyDataError`. -/
theorem draw_without_plots_witness :
    0 < figDemo.height ∧ 0 ≤ figDemo.width ∧
    Figure.draw figDemo = .error .emptyData :=
  ⟨by decide, by decide,
   draw_without_plots_empty_data none none none (some 20) (some 10) "topright"
     7 (80, 24) (by decide) (by decide)⟩

/-! ## C4: bars are anchored at the series minimum -/

theorem pyIdx_lt {len : ℕ} {k : ℤ} {k' : ℕ} (h : pyIdx len k = .ok k') :
    k' < len := by
  unfold pyIdx at h
  by_cases hc : k < 0 <;>
    simp only [hc, if_pos, if_neg, if_true, if_false] at h <;>
    · split at h
      · rename_i hd
        injection h with h'
        omega
      · simp at h

/-- After writing one character into one row, every cell is either the
written character or whatever it was before. -/
theorem cellAt_set_or (c : Canvas) (r₀ : ℕ) (row : List Char) (k' : ℕ)
    (ch : Char) (hrow : List.get? c r₀ = some row) (r j : ℕ) :
    Canvas.cellAt (c.set r₀ (Canvas.setAt row k' ch)) r j = some ch ∨
    Canvas.cellAt (c.set r₀ (Canvas.setAt row k' ch)) r j =
      Canvas.cellAt c r j := by
  have hr₀ : r₀ < c.length := (List.get?_eq_some.1 hrow).1
  have hrow' : (c)[r₀]? = some row := by
    rw [← List.get?_eq_getElem?]; exact hrow
  unfold Canvas.cellAt Canvas.setAt
  simp only [List.get?_eq_getElem?]
  by_cases hr : r₀ = r
  · subst hr
    rw [List.getElem?_set_self hr₀, hrow']
    simp only [Option.some_bind]
    rw [List.getElem?_set]
    by_cases hj : k' = j
    · subst hj
      rw [if_pos rfl]
      by_cases hk : k' < row.length
      · exact Or.inl (by rw [if_pos hk])
      · exact Or.inr
          (by rw [if_neg hk, List.getElem?_eq_none (le_of_not_lt hk)])
    · rw [if_neg hj]
      exact Or.inr rfl
  · rw [List.getElem?_set_ne hr]
    exact Or.inr rfl

/-- The written cell itself holds the written character. -/
theorem cellAt_set_hit (c : Canvas) (r₀ : ℕ) (row : List Char) (k' : ℕ)
    (ch : Char) (hrow : List.get? c r₀ = some row) (hk : k' < row.length) :
    Canvas.cellAt (c.set r₀ (Canvas.setAt row k' ch)) r₀ k' = some ch := by
  have hr₀ : r₀ < c.length := (List.get?_eq_some.1 hrow).1
  unfold Canvas.cellAt Canvas.setAt
  simp only [List.get?_eq_getElem?]
  rw [List.getElem?_set_self hr₀]
  simp only [Option.some_bind]
  rw [List.getElem?_set_self hk]

/-- Successful column-write step: the target row existed, the column index
resolved against the uniform width, and the result is the single-row
update. -/
theorem colWriteStep_ok (W : ℕ) (k : ℤ) (ch : Char) (acc acc' : Canvas)
    (r : ℕ) (hW : ∀ row ∈ acc, row.length = W)
    (h : Canvas.colWriteStep k ch acc r = .ok acc') :
    ∃ row k', List.get? acc r = some row ∧ pyIdx W k = .ok k' ∧
      acc' = acc.set r (Canvas.setAt row k' ch) := by
  unfold Canvas.colWriteStep at h
  cases hrow : List.get? acc r with
  | none => rw [hrow] at h; cases h
  | some row =>
    rw [hrow] at h
    have hWr : row.length = W := hW row (List.get?_mem hrow)
    cases hidx : pyIdx row.length k with
    | error e => simp [hidx, Bind.bind, Except.bind] at h
    | ok k' =>
      simp only [hidx, Bind.bind, Except.bind] at h
      cases h
      exact ⟨row, k', rfl, by rw [← hWr]; exact hidx, rfl⟩

/-- Folding column-write steps over a list of row indices: dimensions are
preserved, every listed row receives the character at the resolved column,
and no other cell changes. -/
theorem colFill_fold (W : ℕ) (k : ℤ) (ch : Char) :
    ∀ (rows : List ℕ) (c c' : Canvas), (∀ row ∈ c, row.length = W) →
      List.foldlM (Canvas.colWriteStep k ch) c rows = .ok c' →
      c'.length = c.length ∧ (∀ row ∈ c', row.length = W) ∧
      (∀ r ∈ rows, ∃ k', pyIdx W k = .ok k' ∧
        Canvas.cellAt c' r k' = some ch) ∧
      (∀ r j, Canvas.cellAt c' r j = some ch ∨
        Canvas.cellAt c' r j = Canvas.cellAt c r j) := by
  intro rows
  induction rows with
  | nil =>
    intro c c' hW h
    rw [List.foldlM_nil] at h
    cases h
    exact ⟨rfl, hW, by simp, fun r j => Or.inr rfl⟩
  | cons r rest ih =>
    intro c c' hW h
    rw [List.foldlM_cons] at h
    cases hstep : Canvas.colWriteStep k ch c r with
    | error e => simp [hstep, Bind.bind, Except.bind] at h
    | ok c₁ =>
      simp only [hstep, Bind.bind, Except.bind] at h
      obtain ⟨row, k', hrow, hidx, hset⟩ :=
        colWriteStep_ok W k ch c c₁ r hW hstep
      have hW₁ : ∀ row' ∈ c₁, row'.length = W := by
        subst hset
        intro row' hmem
        rcases List.mem_or_eq_of_mem_set hmem with h' | h'
        · exact hW _ h'
        · subst h'
          rw [Canvas.setAt, List.length_set]
          exact hW row (List.get?_mem hrow)
      obtain ⟨hlen, hWc, hmem, hpres⟩ := ih c₁ c' hW₁ h
      have hk'W : k' < W := pyIdx_lt hidx
      have hkrow : k' < row.length := by
        rw [hW row (List.get?_mem hrow)]; exact hk'W
      refine ⟨?_, hWc, ?_, ?_⟩
      · rw [hlen]; subst hset; exact List.length_set c r _
      · intro r₀ hr₀
        rcases List.mem_cons.1 hr₀ with rfl | hr₀'
        · refine ⟨k', hidx, ?_⟩
          rcases hpres r₀ k' with hc | hc
          · exact hc
          · rw [hc]; subst hset
            exact cellAt_set_hit c r₀ row k' ch hrow hkrow
        · exact hmem r₀ hr₀'
      · intro r₀ j
        rcases hpres r₀ j with hc | hc
        · exact Or.inl hc
        · rw [hc]; subst hset
          exact cellAt_set_or c r row k' ch hrow r₀ j

/-- `canvas[a:b, k] = ch` on a uniform-width canvas: every row of the
resolved slice gets `ch` in the resolved column, nothing else changes,
dimensions are preserved. -/
theorem setColSegFill_spec (c : Canvas) (a b k : ℤ) (ch : Char) (c' : Canvas)
    (W : ℕ) (hW : ∀ row ∈ c, row.length = W)
    (h : Canvas.setColSegFill c a b k ch = .ok c') :
    c'.length = c.length ∧ (∀ row ∈ c', row.length = W) ∧
    (∀ r ∈ pySliceList c.length a b, ∃ k', pyIdx W k = .ok k' ∧
      Canvas.cellAt c' r k' = some ch) ∧
    (∀ r j, Canvas.cellAt c' r j = some ch ∨
      Canvas.cellAt c' r j = Canvas.cellAt c r j) := by
  unfold Canvas.setColSegFill at h
  exact colFill_fold W k ch (pySliceList c.length a b) c c' hW h

/-- The per-pair fold of `draw_bar`: each pair's column slice is filled with
the marker, and only marker writes happen. -/
theorem barFold_spec (m : Char) (bt : ℚ) (W : ℕ) :
    ∀ (ps : List (ℚ × ℚ)) (c c' : Canvas), (∀ row ∈ c, row.length = W) →
      List.foldlM (fun c p => Canvas.setColSegFill c (-(pyround p.2) - 1)
        (-(pytrunc bt)) (pyround p.1) m) c ps = .ok c' →
      c'.length = c.length ∧ (∀ row ∈ c', row.length = W) ∧
      (∀ p ∈ ps, ∀ r ∈ pySliceList c.length (-(pyround p.2) - 1)
          (-(pytrunc bt)),
        ∃ k, pyIdx W (pyround p.1) = .ok k ∧ Canvas.cellAt c' r k = some m) ∧
      (∀ r j, Canvas.cellAt c' r j = some m ∨
        Canvas.cellAt c' r j = Canvas.cellAt c r j) := by
  intro ps
  induction ps with
  | nil =>
    intro c c' hW h
    rw [List.foldlM_nil] at h
    cases h
    exact ⟨rfl, hW, by simp, fun r j => Or.inr rfl⟩
  | cons p rest ih =>
    intro c c' hW h
    rw [List.foldlM_cons] at h
    cases hstep : Canvas.setColSegFill c (-(pyround p.2) - 1) (-(pytrunc bt))
        (pyround p.1) m with
    | error e => simp [hstep, Bind.bind, Except.bind] at h
    | ok c₁ =>
      simp only [hstep, Bind.bind, Except.bind] at h
      obtain ⟨hlen₁, hW₁, hmem₁, hpres₁⟩ :=
        setColSegFill_spec c _ _ _ m c₁ W hW hstep
      obtain ⟨hlen, hWc, hmem, hpres⟩ := ih c₁ c' hW₁ h
      refine ⟨hlen.trans hlen₁, hWc, ?_, ?_⟩
      · intro p₀ hp₀
        rcases List.mem_cons.1 hp₀ with rfl | hp₀'
        · intro r hrs
          obtain ⟨k, hk, hc₁⟩ := hmem₁ r hrs
          refine ⟨k, hk, ?_⟩
          rcases hpres r k with hc | hc
          · exact hc
          · rw [hc]; exact hc₁
        · intro r hrs
          rw [← hlen₁] at hrs
          exact hmem p₀ hp₀' r hrs
      · intro r j
        rcases hpres r j with hc | hc
        · exact Or.inl hc
        · rw [hc]; exact hpres₁ r j

/-- C4.  At draw time, `draw_bar` writes, for each transformed pair
`(txᵢ, tyᵢ)`, the marker into the single column `round(txᵢ)` over the rows of
the Python slice `[-round(tyᵢ)-1 : -int(bottom)]`, where
`bottom = yscale.transform(min(y))` — those rows run from the cell of the
transformed y value down to the cell of the transformed minimum of the
series' own y values.  (The anchor is the transformed series minimum: zero
and the scale minimum never enter the computation.)  Moreover a bar draw
changes no cell to anything other than the marker. -/
theorem bar_fills_column_to_series_min (xsc ysc : Scale) (x y : List Value)
    (m : Char) (c c' : Canvas) (W : ℕ) (vmin : Value) (bt : ℚ)
    (txs tys : List ℚ)
    (hW : ∀ row ∈ c, row.length = W)
    (hmin : pyMinV y = .ok vmin)
    (hbt : Scale.transform ysc vmin = .ok bt)
    (hx : Scale.transformL xsc x = .ok txs)
    (hy : Scale.transformL ysc y = .ok tys)
    (h : Figure.drawBar xsc ysc x y m c = .ok c') :
    (∀ p ∈ List.zip txs tys,
      ∀ r ∈ pySliceList c.length (-(pyround p.2) - 1) (-(pytrunc bt)),
        ∃ k, pyIdx W (pyround p.1) = .ok k ∧
          Canvas.cellAt c' r k = some m) ∧
    (∀ r j, Canvas.cellAt c' r j = some m ∨
      Canvas.cellAt c' r j = Canvas.cellAt c r j) := by
  unfold Figure.drawBar at h
  rw [hmin] at h
  simp only [Bind.bind, Except.bind] at h
  rw [hbt] at h
  simp only at h
  rw [hx] at h
  simp only at h
  rw [hy] at h
  simp only at h
  obtain ⟨_, _, hmem, hpres⟩ :=
    barFold_spec m bt W (List.zip txs tys) c c' hW h
  exact ⟨hmem, hpres⟩

/-- A blank 10×20 canvas. -/
def blank10x20 : Canvas :=
  List.replicate 10 (List.replicate 20 ' ')

/-- The canvas `draw_bar` produces for `bar([1,2,3], [1,2,3])` under the
scales the `figScatter` configuration derives. -/
def barCanvas : Canvas :=
  (["               #    ",
    "               #    ",
    "               #    ",
    "            #  #    ",
    "            #  #    ",
    "            #  #    ",
    "        #   #  #    ",
    "                    ",
    "                    ",
    "                    "].map String.data)

/-- Witness for C4: drawing `bar([1,2,3],[1,2,3])` on a blank 10×20 canvas
with the linear scales of the 20×10 figure fills, for every pair, the
resolved column from the transformed y height down to the transformed series
minimum. -/
theorem bar_fills_column_witness :
    Figure.drawBar (.linear 0 4 4 19) (.linear 1 3 3 9) (numsV [1, 2, 3])
      (numsV [1, 2, 3]) '#' blank10x20 = .ok barCanvas ∧
    ∀ p ∈ List.zip [(31 : ℚ)/4, 23/2, 61/4] [(3 : ℚ), 6, 9],
      ∀ r ∈ pySliceList blank10x20.length (-(pyround p.2) - 1)
          (-(pytrunc 3)),
        ∃ k, pyIdx 20 (pyround p.1) = .ok k ∧
          Canvas.cellAt barCanvas r k = some '#' := by
  have hdb : Figure.drawBar (.linear 0 4 4 19) (.linear 1 3 3 9)
      (numsV [1, 2, 3]) (numsV [1, 2, 3]) '#' blank10x20 = .ok barCanvas := by
    with_unfolding_all decide
  refine ⟨hdb, ?_⟩
  exact (bar_fills_column_to_series_min (.linear 0 4 4 19) (.linear 1 3 3 9)
    (numsV [1, 2, 3]) (numsV [1, 2, 3]) '#' blank10x20 barCanvas 20
    (Value.num 1) 3 [31/4, 23/2, 61/4] [3, 6, 9]
    (by decide)
    (by with_unfolding_all decide)
    (by with_unfolding_all decide)
    (by with_unfolding_all decide)
    (by with_unfolding_all decide)
    hdb).1

/-! ## C5: the legend box -/

/-- The characters a canvas shows at row `r`, columns `[a, a+n)`. -/
def rowSegAt (c : Canvas) (r a n : ℕ) : Option (List Char) :=
  (List.get? c r).map (fun row => (row.drop a).take n)

theorem pySlice_le (len : ℕ) (a b : ℤ) :
    (pySlice len a b).1 ≤ (pySlice len a b).2 ∧ (pySlice len a b).2 ≤ len := by
  unfold pySlice
  constructor <;> simp only [] <;> omega

/-- Eliminating a successful exact-length row-segment write (the list is not
a broadcastable singleton): the row resolved, the slice length matched, and
the result replaces just that row. -/
theorem setRowSegList_ok_elim (c : Canvas) (r a b : ℤ) (s : List Char)
    (c' : Canvas) (hs : s.length ≠ 1)
    (h : Canvas.setRowSegList c r a b s = .ok c') :
    ∃ r' row, pyIdx c.length r = .ok r' ∧ List.get? c r' = some row ∧
      s.length =
        (pySlice row.length a b).2 - (pySlice row.length a b).1 ∧
      c' = c.set r' ((List.range row.length).map (fun k =>
        if (pySlice row.length a b).1 ≤ k ∧ k < (pySlice row.length a b).2
        then s.getD (k - (pySlice row.length a b).1) ' '
        else row.getD k ' ')) := by
  unfold Canvas.setRowSegList at h
  cases hidx : pyIdx c.length r with
  | error e => rw [hidx] at h; cases h
  | ok r' =>
    rw [hidx] at h
    simp only [Bind.bind, Except.bind] at h
    cases hrow : List.get? c r' with
    | none => rw [hrow] at h; cases h
    | some row =>
      rw [hrow] at h
      dsimp only at h
      by_cases hlen : s.length =
          (pySlice row.length a b).2 - (pySlice row.length a b).1
      · rw [if_pos hlen] at h
        cases h
        exact ⟨r', row, rfl, hrow, hlen, rfl⟩
      · rw [if_neg hlen] at h
        by_cases hone : s.length = 1
        · exact absurd hone hs
        · rw [if_neg hone] at h
          cases h

/-- Writing a segment into one row leaves every other row unchanged. -/
theorem get?_set_other (c : Canvas) (r' : ℕ) (row' : List Char) (r'' : ℕ)
    (hne : r'' ≠ r') : List.get? (c.set r' row') r'' = List.get? c r'' := by
  rw [List.get?_eq_getElem?, List.getElem?_set_ne (fun he => hne he.symm),
    ← List.get?_eq_getElem?]

/-- The freshly written row shows exactly the written list on the resolved
slice. -/
theorem rowSegAt_set_self (c : Canvas) (r' : ℕ) (row s : List Char)
    (p₁ p₂ : ℕ) (hrow : List.get? c r' = some row) (hp₁ : p₁ ≤ p₂)
    (hp₂ : p₂ ≤ row.length) (hlen : s.length = p₂ - p₁) :
    rowSegAt (c.set r' ((List.range row.length).map (fun k =>
        if p₁ ≤ k ∧ k < p₂ then s.getD (k - p₁) ' ' else row.getD k ' ')))
      r' p₁ (p₂ - p₁) = some s := by
  have hr' : r' < c.length := (List.get?_eq_some.1 hrow).1
  unfold rowSegAt
  rw [List.get?_eq_getElem?, List.getElem?_set_self hr', Option.map_some']
  congr 1
  apply List.ext_getElem?
  intro n
  rw [List.getElem?_take]
  by_cases hn : n < p₂ - p₁
  · rw [if_pos hn, List.getElem?_drop, List.getElem?_map]
    rw [List.getElem?_range (by omega)]
    simp only [Option.map_some']
    rw [if_pos (by omega)]
    have hsn : n < s.length := by omega
    rw [show p₁ + n - p₁ = n by omega]
    rw [List.getD_eq_getElem?_getD]
    rw [List.getElem?_eq_getElem hsn]
    rfl
  · rw [if_neg hn]
    rw [List.getElem?_eq_none (by omega)]

/-- Every element of a list is bounded by the `foldl max` over it. -/
theorem le_foldl_max (l : List ℕ) : ∀ (init : ℕ),
    init ≤ l.foldl max init ∧ ∀ x ∈ l, x ≤ l.foldl max init := by
  induction l with
  | nil => intro init; exact ⟨le_refl _, by simp⟩
  | cons a t ih =>
    intro init
    obtain ⟨h1, h2⟩ := ih (max init a)
    refine ⟨le_trans (le_max_left _ _) h1, ?_⟩
    intro x hx
    rcases List.mem_cons.1 hx with rfl | hx'
    · exact le_trans (le_max_right init x) h1
    · exact h2 x hx'

theorem legendWidthN_ge (labels : List (Char × String)) :
    8 ≤ Figure.legendWidthN labels :=
  le_max_right _ _



/-- The legend box has one line per entry plus two border lines. -/
theorem legendBox_length (labels : List (Char × String)) :
    (Figure.legendBox labels).length = labels.length + 2 := by
  simp [Figure.legendBox]

/-- Every line of the legend box is exactly `Figure.legendWidthN labels` wide. -/
theorem legendBox_line_length (labels : List (Char × String)) :
    ∀ line ∈ Figure.legendBox labels, line.length = Figure.legendWidthN labels := by
  intro line hline
  have hw : 8 ≤ Figure.legendWidthN labels := legendWidthN_ge labels
  rcases List.mem_cons.1 hline with rfl | hline'
  · simp only [List.length_cons, List.length_append, List.length_cons,
      List.length_nil, pyCenter_length]
    omega
  · rcases List.mem_append.1 hline' with hmid | hlast
    · obtain ⟨ml, hml, rfl⟩ := List.mem_map.1 hmid
      have hle : ml.2.length + 2 ≤ Figure.legendWidthN labels - 2 := by
        have := (le_foldl_max (labels.map (fun ml => ml.2.length + 2)) 0).2
          (ml.2.length + 2) (List.mem_map.2 ⟨ml, hml, rfl⟩)
        unfold Figure.legendWidthN
        omega
      simp only [List.length_cons, List.length_append, List.length_cons,
        List.length_nil, pyLjust_length, List.length_cons]
      have hdl : ml.2.data.length = ml.2.length := rfl
      omega
    · rw [List.mem_singleton.1 hlast]
      simp only [List.length_cons, List.length_append,
        List.length_replicate, List.length_cons, List.length_nil]
      omega

/-- Interior line `i + 1` of the legend box is
`"|" + (marker + " " + label).ljust(width - 2) + "|"` for the `i`-th legend
entry. -/
theorem legendBox_interior (labels : List (Char × String)) (i : ℕ)
    (hi : i < labels.length) :
    (Figure.legendBox labels).get? (i + 1) =
      some ('|' :: (pyLjust ((labels.get ⟨i, hi⟩).1 :: ' ' ::
          (labels.get ⟨i, hi⟩).2.data)
        (Figure.legendWidthN labels - 2) ' ' ++ ['|'])) := by
  simp only [Figure.legendBox]
  rw [List.get?_eq_getElem?,
    List.getElem?_append_left
      (by simp only [List.length_cons, List.length_map]; omega),
    List.getElem?_cons_succ, List.getElem?_map,
    List.getElem?_eq_getElem hi]
  simp only [Option.map_some', List.get_eq_getElem]
  rfl

/-- Inverting a successful `Except` bind. -/
theorem bind_ok_elim {α β : Type} {e : Except FigError α}
    {f : α → Except FigError β} {b : β} (h : e >>= f = .ok b) :
    ∃ a, e = .ok a ∧ f a = .ok b := by
  cases e with
  | error err => exact absurd h (by simp [Bind.bind, Except.bind])
  | ok a => exact ⟨a, rfl, h⟩

/-- Characterization of a successful Python index resolution. -/
theorem pyIdx_ok_elim {len : ℕ} {t : ℤ} {r : ℕ} (h : pyIdx len t = .ok r) :
    (t < 0 ∧ 0 ≤ t + len ∧ t + len < len ∧ (r : ℤ) = t + len) ∨
    (0 ≤ t ∧ t < len ∧ (r : ℤ) = t) := by
  unfold pyIdx at h
  by_cases hc : t < 0
  · simp only [hc, if_true] at h
    split at h
    · rename_i hd
      injection h with h'
      subst h'
      exact Or.inl ⟨hc, hd.1, hd.2, Int.toNat_of_nonneg hd.1⟩
    · cases h
  · simp only [hc, if_false] at h
    split at h
    · rename_i hd
      injection h with h'
      subst h'
      exact Or.inr ⟨hd.1, hd.2, Int.toNat_of_nonneg hd.1⟩
    · cases h

/-- Two indices whose distance is smaller than the length resolve to
different rows. -/
theorem pyIdx_inj {len : ℕ} {t₁ t₂ : ℤ} {r₁ r₂ : ℕ}
    (h₁ : pyIdx len t₁ = .ok r₁) (h₂ : pyIdx len t₂ = .ok r₂)
    (hlt : t₁ < t₂) (hspan : t₂ - t₁ < len) : r₁ ≠ r₂ := by
  rcases pyIdx_ok_elim h₁ with ⟨a1, b1, c1, d1⟩ | ⟨a1, b1, d1⟩ <;>
    rcases pyIdx_ok_elim h₂ with ⟨a2, b2, c2, d2⟩ | ⟨a2, b2, d2⟩ <;>
    intro he <;> rw [he] at d1 <;> omega

/-- Folding the legend-box writes over `enumFrom i lines`: dimensions are
preserved, only the written rows change, and afterwards row `top + i + j`
shows line `j` on the resolved column slice.  The span bound
`i + lines.length ≤ H` rules out two distinct line indices resolving to the
same canvas row (negative-index wraparound by exactly the height). -/
theorem boxFold_spec (H W wN : ℕ) (top left w : ℤ) (hwN : wN ≠ 1) :
    ∀ (lines : List (List Char)) (i : ℕ) (c c' : Canvas),
      c.length = H → (∀ row ∈ c, row.length = W) →
      (∀ line ∈ lines, line.length = wN) →
      (i + lines.length ≤ H) →
      ((List.enumFrom i lines).foldlM
        (fun c il => Canvas.setRowSegList c (top + il.1) left (left + w) il.2)
        c = .ok c') →
      c'.length = H ∧ (∀ row ∈ c', row.length = W) ∧
      (∀ r'', List.get? c' r'' ≠ List.get? c r'' →
        ∃ j, j < lines.length ∧ pyIdx H (top + ((i + j : ℕ) : ℤ)) = .ok r'') ∧
      (∀ j (hj : j < lines.length), ∃ r',
        pyIdx H (top + ((i + j : ℕ) : ℤ)) = .ok r' ∧
        rowSegAt c' r' (pySlice W left (left + w)).1 wN =
          some (lines.get ⟨j, hj⟩)) := by
  intro lines
  induction lines with
  | nil =>
    intro i c c' hH hW _ _ h
    rw [show List.enumFrom i ([] : List (List Char)) = [] from rfl,
      List.foldlM_nil] at h
    cases h
    refine ⟨hH, hW, fun r'' hne => absurd rfl hne, fun j hj => absurd hj (by simp)⟩
  | cons line rest ih =>
    intro i c c' hH hW hlines hspan h
    rw [List.enumFrom_cons, List.foldlM_cons] at h
    dsimp only at h
    obtain ⟨c₁, hstep, h⟩ := bind_ok_elim h
    have hlineW : line.length = wN := hlines line (List.mem_cons_self _ _)
    obtain ⟨r', row, hidx, hrow, hlen, hcset⟩ :=
      setRowSegList_ok_elim c (top + (i : ℤ)) left (left + w) line c₁
        (by rw [hlineW]; exact hwN) hstep
    have hrowW : row.length = W := hW row (List.get?_mem hrow)
    have hlenW : line.length = (pySlice W left (left + w)).2 -
        (pySlice W left (left + w)).1 := by rw [← hrowW]; exact hlen
    have hidxH : pyIdx H (top + (i : ℤ)) = .ok r' := by rw [← hH]; exact hidx
    have hc₁H : c₁.length = H := by
      rw [hcset, List.length_set]; exact hH
    have hW₁ : ∀ row' ∈ c₁, row'.length = W := by
      rw [hcset]
      intro row' hmem
      rcases List.mem_or_eq_of_mem_set hmem with h' | h'
      · exact hW _ h'
      · subst h'
        rw [List.length_map, List.length_range]
        exact hrowW
    obtain ⟨hH', hW', hchg, hmem⟩ := ih (i + 1) c₁ c' hc₁H hW₁
      (fun l hl => hlines l (List.mem_cons_of_mem _ hl))
      (by simp only [List.length_cons] at hspan; omega) h
    have hwNles : wN = (pySlice W left (left + w)).2 -
        (pySlice W left (left + w)).1 := by rw [← hlineW]; exact hlenW
    refine ⟨hH', hW', ?_, ?_⟩
    · intro r'' hne
      by_cases hch₁ : List.get? c' r'' = List.get? c₁ r''
      · -- the change happened in the first write: r'' must be r'
        have hne₁ : List.get? c₁ r'' ≠ List.get? c r'' := by
          rw [← hch₁]; exact hne
        by_cases hrr : r'' = r'
        · subst hrr
          exact ⟨0, by simp only [List.length_cons]; omega,
            by rw [show (i + 0 : ℕ) = i from by omega]; exact hidxH⟩
        · exact absurd (by rw [hcset]; exact get?_set_other c r' _ r'' hrr) hne₁
      · obtain ⟨j, hjlt, hj⟩ := hchg r'' hch₁
        refine ⟨j + 1, by simp only [List.length_cons]; omega, ?_⟩
        rw [show (i + (j + 1) : ℕ) = (i + 1 + j : ℕ) from by omega]
        exact hj
    · intro j hj
      cases j with
      | zero =>
        refine ⟨r', by rw [show (i + 0 : ℕ) = i from by omega]; exact hidxH, ?_⟩
        have hpersist : List.get? c' r' = List.get? c₁ r' := by
          by_contra hne
          obtain ⟨j', hj'lt, hj'⟩ := hchg r' hne
          exact pyIdx_inj hidxH hj' (by push_cast; omega)
            (by push_cast; simp only [List.length_cons] at hspan; omega) rfl
        have hple := pySlice_le row.length left (left + w)
        have hseg₁ : rowSegAt c₁ r'
            (pySlice row.length left (left + w)).1
            ((pySlice row.length left (left + w)).2 -
              (pySlice row.length left (left + w)).1) = some line := by
          rw [hcset]
          exact rowSegAt_set_self c r' row line _ _ hrow hple.1 hple.2 hlen
        rw [hrowW, ← hwNles] at hseg₁
        rw [rowSegAt, hpersist, ← rowSegAt]
        exact hseg₁
      | succ j₀ =>
        obtain ⟨r₀, hr₀, hseg₀⟩ := hmem j₀ (by
          simp only [List.length_cons] at hj; omega)
        refine ⟨r₀, ?_, ?_⟩
        · rw [show (i + (j₀ + 1) : ℕ) = (i + 1 + j₀ : ℕ) from by omega]
          exact hr₀
        · exact hseg₀

set_option maxHeartbeats 1000000 in
/-- C5.  When legend entries exist, the legend drawing step — the final canvas
operation of `Figure.draw` — renders a bordered box: its width is the maximum
of (longest `marker + " " + label` line + 2) and (`len("Legend") + 2`); it has
one line per entry plus two borders; every line is exactly that wide; interior
line `i + 1` is `"|" + (marker + " " + label).ljust(width - 2) + "|"` for the
`i`-th registered legend entry (registration order); and each box line `j`
appears verbatim in the output canvas at the row resolving `top + j`, on the
resolved column slice.  The hypotheses ask that the incoming canvas be
`H × W` with the box no taller than `H` (otherwise Python's negative-index
wraparound could make two box rows collide); the last conjunct shows that a
successful `draw` whose figure has legend entries indeed ends with exactly
such a legend-draw producing the final canvas. -/
theorem legend_box_rendered (s : Figure) (d : Figure.Derived)
    (cin cout : Canvas) (H W : ℕ)
    (hH : cin.length = H) (hWu : ∀ row ∈ cin, row.length = W)
    (hl : s.labels ≠ []) (hfit : s.labels.length + 2 ≤ H)
    (h : Figure.drawLegend s d cin = .ok cout) :
    Figure.legendWidthN s.labels =
      max (((s.labels.map (fun ml => ml.2.length + 2)).foldl max 0) + 2)
        ("Legend".length + 2) ∧
    (Figure.legendBox s.labels).length = s.labels.length + 2 ∧
    (∀ line ∈ Figure.legendBox s.labels,
      line.length = Figure.legendWidthN s.labels) ∧
    (∀ i (hi : i < s.labels.length),
      (Figure.legendBox s.labels).get? (i + 1) =
        some ('|' :: (pyLjust ((s.labels.get ⟨i, hi⟩).1 :: ' ' ::
            (s.labels.get ⟨i, hi⟩).2.data)
          (Figure.legendWidthN s.labels - 2) ' ' ++ ['|']))) ∧
    (∃ top left : ℤ, ∀ j (hj : j < (Figure.legendBox s.labels).length),
      ∃ r', pyIdx H (top + (j : ℤ)) = .ok r' ∧
        rowSegAt cout r'
          (pySlice W left (left + (Figure.legendWidthN s.labels : ℤ))).1
          (Figure.legendWidthN s.labels) =
          some ((Figure.legendBox s.labels).get ⟨j, hj⟩)) ∧
    (∀ (s' : Figure) (cc : Canvas) (s₂ : Figure),
      Figure.draw s' = .ok (cc, s₂) → s₂.labels ≠ [] →
      ∃ d' cpre, Figure.drawLegend s₂ d' cpre = .ok cc) := by
  refine ⟨rfl, legendBox_length _, legendBox_line_length _,
    legendBox_interior _, ?_, ?_⟩
  · -- the box is written into the canvas
    unfold Figure.drawLegend at h
    rw [if_neg (by simp [hl])] at h
    obtain ⟨top, htop, h⟩ := bind_ok_elim h
    obtain ⟨left, hleft, h⟩ := bind_ok_elim h
    have henum : (Figure.legendBox s.labels).enum =
        List.enumFrom 0 (Figure.legendBox s.labels) := rfl
    rw [henum] at h
    have hwN1 : Figure.legendWidthN s.labels ≠ 1 := by
      have := legendWidthN_ge s.labels
      omega
    obtain ⟨_, _, _, hmem⟩ := boxFold_spec H W (Figure.legendWidthN s.labels)
      top left (Figure.legendWidthN s.labels : ℤ) hwN1
      (Figure.legendBox s.labels) 0 cin cout hH hWu
      (legendBox_line_length s.labels)
      (by rw [legendBox_length]; omega) h
    refine ⟨top, left, ?_⟩
    intro j hj
    obtain ⟨r', hr', hseg⟩ := hmem j hj
    rw [show ((0 + j : ℕ) : ℤ) = (j : ℤ) from by push_cast; omega] at hr'
    exact ⟨r', hr', hseg⟩
  · -- draw ends in exactly this legend-draw
    intro s' cc s₂ hdraw hlab
    unfold Figure.draw at hdraw
    obtain ⟨c0, h1, hdraw⟩ := bind_ok_elim hdraw
    dsimp only at hdraw
    split at hdraw <;>
    · obtain ⟨c1, h2, hdraw⟩ := bind_ok_elim hdraw
      obtain ⟨ds, h3, hdraw⟩ := bind_ok_elim hdraw
      obtain ⟨d', st⟩ := ds
      dsimp only at hdraw
      obtain ⟨c2, h4, hdraw⟩ := bind_ok_elim hdraw
      obtain ⟨c3, h5, hdraw⟩ := bind_ok_elim hdraw
      obtain ⟨c4, h6, hdraw⟩ := bind_ok_elim hdraw
      by_cases hemp : st.labels.isEmpty
      · rw [if_pos hemp] at hdraw
        obtain ⟨c5, h7, hdraw⟩ := bind_ok_elim hdraw
        have hok : Except.ok (ε := FigError) (c5, st) = .ok (cc, s₂) := hdraw
        injection hok with hp
        have hst : st = s₂ := congrArg Prod.snd hp
        rw [hst] at hemp
        exact absurd (List.isEmpty_iff.1 hemp) hlab
      · rw [if_neg hemp] at hdraw
        obtain ⟨c5, h7, hdraw⟩ := bind_ok_elim hdraw
        have hok : Except.ok (ε := FigError) (c5, st) = .ok (cc, s₂) := hdraw
        injection hok with hp
        have hcc : c5 = cc := congrArg Prod.fst hp
        have hst : st = s₂ := congrArg Prod.snd hp
        rw [← hcc, ← hst]
        exact ⟨d', c4, h7⟩

/-- The derived values of the 20×10 scatter figure, reused for the legend
witness. -/
def derivedDemo : Figure.Derived :=
  ⟨numsV [1, 3/2, 2, 5/2, 3], numsV [0, 2, 4], 4, .linear 1 3 3 9,
    .linear 0 4 4 19⟩

/-- The canvas `_draw_legend` produces for the single entry `('o', "A")` at
`legendloc = "topright"` on a blank 10×20 canvas. -/
def legendCanvas : Canvas :=
  (["        +Legend+    ",
    "        |o A   |    ",
    "        +------+    ",
    "                    ",
    "                    ",
    "                    ",
    "                    ",
    "                    ",
    "                    ",
    "                    "].map String.data)

/-- Witness for C5: the legend of `figLabeled` (one labeled scatter) drawn on
a blank 10×20 canvas is a bordered box of width `max(3 + 2, 8) = 8` whose
interior line is `"|o A   |"`, present in the output rows. -/
theorem legend_box_witness :
    Figure.drawLegend figLabeled derivedDemo blank10x20 = .ok legendCanvas ∧
    figLabeled.labels ≠ [] ∧
    Figure.legendWidthN figLabeled.labels = 8 ∧
    (∃ top left : ℤ,
      ∀ j (hj : j < (Figure.legendBox figLabeled.labels).length),
      ∃ r', pyIdx 10 (top + (j : ℤ)) = .ok r' ∧
        rowSegAt legendCanvas r'
          (pySlice 20 left
            (left + (Figure.legendWidthN figLabeled.labels : ℤ))).1
          (Figure.legendWidthN figLabeled.labels) =
          some ((Figure.legendBox figLabeled.labels).get ⟨j, hj⟩)) := by
  have hdl : Figure.drawLegend figLabeled derivedDemo blank10x20 =
      .ok legendCanvas := by with_unfolding_all decide
  refine ⟨hdl, by decide, by decide, ?_⟩
  exact (legend_box_rendered figLabeled derivedDemo blank10x20 legendCanvas
    10 20 (by decide) (by decide) (by decide) (by decide) hdl).2.2.2.2.1

/-! ## C3: rendering twice yields identical output

The risk the claim addresses is the `cached_property` layer: the second
`draw` reads the caches the first one populated instead of recomputing.  The
lemmas below show each cached getter returns, on the state it produced,
exactly the value it cached — so a second `render` retraces the first. -/

/-- The non-cache fields (configuration, plots, legend entries) agree. -/
def SameCore (s s' : Figure) : Prop :=
  s'.xlabel = s.xlabel ∧ s'.ylabel = s.ylabel ∧ s'.title = s.title ∧
  s'.legendloc = s.legendloc ∧ s'.xticklabel_length = s.xticklabel_length ∧
  s'.width = s.width ∧ s'.height = s.height ∧ s'.plots = s.plots ∧
  s'.labels = s.labels

theorem sameCore_refl (s : Figure) : SameCore s s :=
  ⟨rfl, rfl, rfl, rfl, rfl, rfl, rfl, rfl, rfl⟩

theorem sameCore_trans {a b c : Figure} (h₁ : SameCore a b)
    (h₂ : SameCore b c) : SameCore a c := by
  obtain ⟨e1, e2, e3, e4, e5, e6, e7, e8, e9⟩ := h₁
  obtain ⟨f1, f2, f3, f4, f5, f6, f7, f8, f9⟩ := h₂
  exact ⟨f1.trans e1, f2.trans e2, f3.trans e3, f4.trans e4, f5.trans e5,
    f6.trans e6, f7.trans e7, f8.trans e8, f9.trans e9⟩

/-- A cached getter returns its cache when it is populated. -/
theorem getYticks_hit (s : Figure) (v : List Value)
    (h : s.cYticks = some v) : Figure.getYticks s = .ok (v, s) := by
  unfold Figure.getYticks
  rw [h]

theorem getXticks_hit (s : Figure) (v : List Value)
    (h : s.cXticks = some v) : Figure.getXticks s = .ok (v, s) := by
  unfold Figure.getXticks
  rw [h]

theorem getYaxWidth_hit (s : Figure) (v : ℤ)
    (h : s.cYaxWidth = some v) : Figure.getYaxWidth s = .ok (v, s) := by
  unfold Figure.getYaxWidth
  rw [h]

theorem getYscale_hit (s : Figure) (v : Scale)
    (h : s.cYscale = some v) : Figure.getYscale s = .ok (v, s) := by
  unfold Figure.getYscale
  rw [h]

theorem getXscale_hit (s : Figure) (v : Scale)
    (h : s.cXscale = some v) : Figure.getXscale s = .ok (v, s) := by
  unfold Figure.getXscale
  rw [h]

/-- A successful `_ytick_values` access caches its value, changes nothing
else, and leaves the other caches untouched (a previously cached value, had
there been one, would be preserved). -/
theorem getYticks_ok {s : Figure} {v : List Value} {s' : Figure}
    (h : Figure.getYticks s = .ok (v, s')) :
    s'.cYticks = some v ∧ SameCore s s' ∧
    (∀ u, s.cYticks = some u → s'.cYticks = some u) ∧
    s'.cXticks = s.cXticks ∧ s'.cYaxWidth = s.cYaxWidth ∧
    s'.cYscale = s.cYscale ∧ s'.cXscale = s.cXscale := by
  unfold Figure.getYticks at h
  cases hc : s.cYticks with
  | some t =>
    rw [hc] at h
    have hok : Except.ok (ε := FigError) (t, s) = .ok (v, s') := h
    injection hok with hp
    injection hp with hv hs
    subst hv; subst hs
    exact ⟨hc, sameCore_refl s, fun u hu => hc.trans hu, rfl, rfl, rfl, rfl⟩
  | none =>
    rw [hc] at h
    obtain ⟨t, hct, h⟩ := bind_ok_elim h
    have hok : Except.ok (ε := FigError)
        (t, { s with cYticks := some t }) = .ok (v, s') := h
    injection hok with hp
    injection hp with hv hs
    subst hv; subst hs
    refine ⟨rfl, ⟨rfl, rfl, rfl, rfl, rfl, rfl, rfl, rfl, rfl⟩, ?_, rfl, rfl,
      rfl, rfl⟩
    intro u hu
    cases hu

/-- Analogue of `getYticks_ok` for `_xtick_values`. -/
theorem getXticks_ok {s : Figure} {v : List Value} {s' : Figure}
    (h : Figure.getXticks s = .ok (v, s')) :
    s'.cXticks = some v ∧ SameCore s s' ∧
    (∀ u, s.cXticks = some u → s'.cXticks = some u) ∧
    s'.cYticks = s.cYticks ∧ s'.cYaxWidth = s.cYaxWidth ∧
    s'.cYscale = s.cYscale ∧ s'.cXscale = s.cXscale := by
  unfold Figure.getXticks at h
  cases hc : s.cXticks with
  | some t =>
    rw [hc] at h
    have hok : Except.ok (ε := FigError) (t, s) = .ok (v, s') := h
    injection hok with hp
    injection hp with hv hs
    subst hv; subst hs
    exact ⟨hc, sameCore_refl s, fun u hu => hc.trans hu, rfl, rfl, rfl, rfl⟩
  | none =>
    rw [hc] at h
    obtain ⟨t, hct, h⟩ := bind_ok_elim h
    have hok : Except.ok (ε := FigError)
        (t, { s with cXticks := some t }) = .ok (v, s') := h
    injection hok with hp
    injection hp with hv hs
    subst hv; subst hs
    refine ⟨rfl, ⟨rfl, rfl, rfl, rfl, rfl, rfl, rfl, rfl, rfl⟩, ?_, rfl, rfl,
      rfl, rfl⟩
    intro u hu
    cases hu

/-- `_yax_width` caches its value; it may populate `_ytick_values` on the
way, and touches nothing else. -/
theorem getYaxWidth_ok {s : Figure} {v : ℤ} {s' : Figure}
    (h : Figure.getYaxWidth s = .ok (v, s')) :
    s'.cYaxWidth = some v ∧ SameCore s s' ∧
    (∀ u, s.cYticks = some u → s'.cYticks = some u) ∧
    (∀ u, s.cYaxWidth = some u → s'.cYaxWidth = some u) ∧
    s'.cXticks = s.cXticks ∧ s'.cYscale = s.cYscale ∧
    s'.cXscale = s.cXscale := by
  unfold Figure.getYaxWidth at h
  cases hc : s.cYaxWidth with
  | some t =>
    rw [hc] at h
    have hok : Except.ok (ε := FigError) (t, s) = .ok (v, s') := h
    injection hok with hp
    injection hp with hv hs
    subst hv; subst hs
    exact ⟨hc, sameCore_refl s, fun u hu => hu, fun u hu => hc.trans hu, rfl,
      rfl, rfl⟩
  | none =>
    rw [hc] at h
    obtain ⟨p, hgt, h⟩ := bind_ok_elim h
    obtain ⟨yt, s₁⟩ := p
    dsimp only at h
    obtain ⟨w, hcw, h⟩ := bind_ok_elim h
    have hok : Except.ok (ε := FigError)
        (w, { s₁ with cYaxWidth := some w }) = .ok (v, s') := h
    injection hok with hp
    injection hp with hv hs
    subst hv; subst hs
    obtain ⟨hyt, hcore, hmono, hxt, hyw, hys, hxs⟩ := getYticks_ok hgt
    refine ⟨rfl, sameCore_trans hcore
      ⟨rfl, rfl, rfl, rfl, rfl, rfl, rfl, rfl, rfl⟩,
      fun u hu => hmono u hu, ?_, hxt, hys, hxs⟩
    intro u hu
    cases hu

/-- `_yscale` caches its value; it may populate `_ytick_values` (for the
refit), and touches nothing else. -/
theorem getYscale_ok {s : Figure} {v : Scale} {s' : Figure}
    (h : Figure.getYscale s = .ok (v, s')) :
    s'.cYscale = some v ∧ SameCore s s' ∧
    (∀ u, s.cYticks = some u → s'.cYticks = some u) ∧
    s'.cXticks = s.cXticks ∧ s'.cYaxWidth = s.cYaxWidth ∧
    s'.cXscale = s.cXscale := by
  unfold Figure.getYscale at h
  cases hc : s.cYscale with
  | some t =>
    rw [hc] at h
    have hok : Except.ok (ε := FigError) (t, s) = .ok (v, s') := h
    injection hok with hp
    injection hp with hv hs
    subst hv; subst hs
    exact ⟨hc, sameCore_refl s, fun u hu => hu, rfl, rfl, rfl⟩
  | none =>
    rw [hc] at h
    obtain ⟨p, hgt, h⟩ := bind_ok_elim h
    obtain ⟨yt, s₁⟩ := p
    dsimp only at h
    obtain ⟨sc, hcs, h⟩ := bind_ok_elim h
    have hok : Except.ok (ε := FigError)
        (sc, { s₁ with cYscale := some sc }) = .ok (v, s') := h
    injection hok with hp
    injection hp with hv hs
    subst hv; subst hs
    obtain ⟨hyt, hcore, hmono, hxt, hyw, hys, hxs⟩ := getYticks_ok hgt
    exact ⟨rfl, sameCore_trans hcore
      ⟨rfl, rfl, rfl, rfl, rfl, rfl, rfl, rfl, rfl⟩,
      fun u hu => hmono u hu, hxt, hyw, hxs⟩

/-- `_xscale` caches its value; on the way it may populate `_yax_width`
(hence `_ytick_values`) and `_xtick_values`; it never touches `_yscale`. -/
theorem getXscale_ok {s : Figure} {v : Scale} {s' : Figure}
    (h : Figure.getXscale s = .ok (v, s')) :
    s'.cXscale = some v ∧ SameCore s s' ∧
    (∀ u, s.cYticks = some u → s'.cYticks = some u) ∧
    (∀ u, s.cYaxWidth = some u → s'.cYaxWidth = some u) ∧
    (∀ u, s.cXticks = some u → s'.cXticks = some u) ∧
    s'.cYscale = s.cYscale := by
  unfold Figure.getXscale at h
  cases hc : s.cXscale with
  | some t =>
    rw [hc] at h
    have hok : Except.ok (ε := FigError) (t, s) = .ok (v, s') := h
    injection hok with hp
    injection hp with hv hs
    subst hv; subst hs
    exact ⟨hc, sameCore_refl s, fun u hu => hu, fun u hu => hu,
      fun u hu => hu, rfl⟩
  | none =>
    rw [hc] at h
    obtain ⟨p₁, hgw, h⟩ := bind_ok_elim h
    obtain ⟨yw, s₁⟩ := p₁
    dsimp only at h
    obtain ⟨p₂, hgx, h⟩ := bind_ok_elim h
    obtain ⟨xt, s₂⟩ := p₂
    dsimp only at h
    obtain ⟨sc, hcs, h⟩ := bind_ok_elim h
    have hok : Except.ok (ε := FigError)
        (sc, { s₂ with cXscale := some sc }) = .ok (v, s') := h
    injection hok with hp
    injection hp with hv hs
    subst hv; subst hs
    obtain ⟨hyw₁, hcore₁, hmono₁, hmownw₁, hxt₁, hys₁, hxs₁⟩ :=
      getYaxWidth_ok hgw
    obtain ⟨hxt₂, hcore₂, hmono₂, hyt₂, hyw₂, hys₂, hxs₂⟩ := getXticks_ok hgx
    refine ⟨rfl, sameCore_trans (sameCore_trans hcore₁ hcore₂)
      ⟨rfl, rfl, rfl, rfl, rfl, rfl, rfl, rfl, rfl⟩, ?_, ?_, ?_, ?_⟩
    · intro u hu
      show s₂.cYticks = some u
      rw [hyt₂]
      exact hmono₁ u hu
    · intro u hu
      show s₂.cYaxWidth = some u
      rw [hyw₂]
      exact hmownw₁ u hu
    · intro u hu
      show s₂.cXticks = some u
      exact hmono₂ u (hxt₁ ▸ hu)
    · show s₂.cYscale = s.cYscale
      rw [hys₂]
      exact hys₁

/-- The first draw pass populates every cache; running the derivation again
on the state it produced reads all five caches back and changes nothing. -/
theorem derive_idem {s : Figure} {d : Figure.Derived} {s' : Figure}
    (h : Figure.derive s = .ok (d, s')) :
    Figure.derive s' = .ok (d, s') ∧ SameCore s s' := by
  unfold Figure.derive at h
  obtain ⟨p₁, hg1, h⟩ := bind_ok_elim h
  obtain ⟨yt, s₁⟩ := p₁
  dsimp only at h
  obtain ⟨p₂, hg2, h⟩ := bind_ok_elim h
  obtain ⟨yw, s₂⟩ := p₂
  dsimp only at h
  obtain ⟨p₃, hg3, h⟩ := bind_ok_elim h
  obtain ⟨xsc, s₃⟩ := p₃
  dsimp only at h
  obtain ⟨p₄, hg4, h⟩ := bind_ok_elim h
  obtain ⟨xt, s₄⟩ := p₄
  dsimp only at h
  obtain ⟨p₅, hg5, h⟩ := bind_ok_elim h
  obtain ⟨ysc, s₅⟩ := p₅
  dsimp only at h
  have hok : Except.ok (ε := FigError)
      ((⟨yt, xt, yw, ysc, xsc⟩ : Figure.Derived), s₅) = .ok (d, s') := h
  injection hok with hp
  injection hp with hd hs
  subst hd
  subst hs
  obtain ⟨c1, core1, m1, e1x, e1w, e1ys, e1xs⟩ := getYticks_ok hg1
  obtain ⟨c2, core2, m2y, m2w, e2x, e2ys, e2xs⟩ := getYaxWidth_ok hg2
  obtain ⟨c3, core3, m3y, m3w, m3x, e3ys⟩ := getXscale_ok hg3
  obtain ⟨c4, core4, m4x, e4y, e4w, e4ys, e4xs⟩ := getXticks_ok hg4
  obtain ⟨c5, core5, m5y, e5x, e5w, e5xs⟩ := getYscale_ok hg5
  have hyt5 : s₅.cYticks = some yt :=
    m5y yt (by rw [e4y]; exact m3y yt (m2y yt c1))
  have hyw5 : s₅.cYaxWidth = some yw := by
    rw [e5w, e4w]
    exact m3w yw c2
  have hxsc5 : s₅.cXscale = some xsc := by
    rw [e5xs, e4xs]
    exact c3
  have hxt5 : s₅.cXticks = some xt := by
    rw [e5x]
    exact c4
  have hysc5 : s₅.cYscale = some ysc := c5
  refine ⟨?_, sameCore_trans (sameCore_trans (sameCore_trans
    (sameCore_trans core1 core2) core3) core4) core5⟩
  unfold Figure.derive
  rw [getYticks_hit s₅ yt hyt5]
  simp only [Bind.bind, Except.bind]
  rw [getYaxWidth_hit s₅ yw hyw5]
  simp only [Bind.bind, Except.bind]
  rw [getXscale_hit s₅ xsc hxsc5]
  simp only [Bind.bind, Except.bind]
  rw [getXticks_hit s₅ xt hxt5]
  simp only [Bind.bind, Except.bind]
  rw [getYscale_hit s₅ ysc hysc5]
  simp only [Bind.bind, Except.bind]
  rfl

/-- C3.  Rendering a figure twice with no registration or configuration
change in between produces byte-identical output (and the same final state):
the second pass allocates a fresh canvas, reads every derived value back out
of the caches the first pass populated — `derive_idem` — and redraws the same
title, axes, plots and legend. -/
theorem render_idempotent (s : Figure) (o₁ : String) (s₁ : Figure)
    (o₂ : String) (s₂ : Figure)
    (h₁ : Figure.render s = .ok (o₁, s₁))
    (h₂ : Figure.render s₁ = .ok (o₂, s₂)) :
    o₂ = o₁ ∧ s₂ = s₁ := by
  unfold Figure.render at h₁
  obtain ⟨p, hdraw, h₁⟩ := bind_ok_elim h₁
  obtain ⟨c, st⟩ := p
  dsimp only at h₁
  have hok : Except.ok (ε := FigError) (Canvas.serialize c, st) =
      .ok (o₁, s₁) := h₁
  injection hok with hp
  injection hp with ho hs
  subst ho
  subst hs
  have hdraw₂ : Figure.draw st = .ok (c, st) := by
    unfold Figure.draw at hdraw ⊢
    obtain ⟨c0, hall, hdraw⟩ := bind_ok_elim hdraw
    dsimp only at hdraw
    split at hdraw <;>
    · rename_i hcond
      obtain ⟨c1, htit, hdraw⟩ := bind_ok_elim hdraw
      obtain ⟨pd, hder, hdraw⟩ := bind_ok_elim hdraw
      obtain ⟨d, st'⟩ := pd
      dsimp only at hdraw
      obtain ⟨c2, hx, hdraw⟩ := bind_ok_elim hdraw
      obtain ⟨c3, hy, hdraw⟩ := bind_ok_elim hdraw
      obtain ⟨c4, hpl, hdraw⟩ := bind_ok_elim hdraw
      obtain ⟨hde, hcore⟩ := derive_idem hder
      by_cases hemp : st'.labels.isEmpty = true <;>
      · first
          | rw [if_pos hemp] at hdraw
          | rw [if_neg hemp] at hdraw
        obtain ⟨c5, hleg, hdraw⟩ := bind_ok_elim hdraw
        have hok2 : Except.ok (ε := FigError) (c5, st') = .ok (c, st) := hdraw
        injection hok2 with hp2
        injection hp2 with hc5 hst'
        subst hc5
        subst hst'
        obtain ⟨k1, k2, k3, k4, k5, k6, k7, k8, k9⟩ := hcore
        rw [k3, k6, k7, hall]
        simp only [Bind.bind, Except.bind]
        first
          | rw [if_pos hcond]
          | rw [if_neg hcond]
        rw [htit]
        simp only [Bind.bind, Except.bind]
        rw [hde]
        simp only [Bind.bind, Except.bind]
        rw [hx]
        simp only [Bind.bind, Except.bind]
        rw [hy]
        simp only [Bind.bind, Except.bind]
        rw [hpl]
        simp only [Bind.bind, Except.bind]
        first
          | rw [if_pos hemp]
          | rw [if_neg hemp]
        rw [hleg]
        simp only [Bind.bind, Except.bind]
        rfl
  unfold Figure.render at h₂
  rw [hdraw₂] at h₂
  simp only [Bind.bind, Except.bind] at h₂
  have hok3 : Except.ok (ε := FigError) (Canvas.serialize c, st) =
      .ok (o₂, s₂) := h₂
  injection hok3 with hp3
  injection hp3 with ho2 hs2
  exact ⟨ho2.symm, hs2.symm⟩

set_option maxRecDepth 40000 in
/-- Witness for C3: rendering the 20×10 scatter figure twice — the second
time from the state whose caches the first render populated — yields the
same output string both times. -/
theorem render_idempotent_witness :
    Figure.render figScatter = .ok (out20x10, figScatterDrawn) ∧
    Figure.render figScatterDrawn = .ok (out20x10, figScatterDrawn) ∧
    out20x10 = out20x10 := by
  have h1 : Figure.render figScatter = .ok (out20x10, figScatterDrawn) := by
    with_unfolding_all decide
  have h2 : Figure.render figScatterDrawn =
      .ok (out20x10, figScatterDrawn) := by
    with_unfolding_all decide
  exact ⟨h1, h2, (render_idempotent figScatter out20x10 figScatterDrawn
    out20x10 figScatterDrawn h1 h2).1⟩

end Tplot
